import Mathlib

/-!
Verification of the weather-data HTTP service (app.py, gcs_client.py,
open_meteo_client.py) against its natural-language specification.

The Python code is shallowly embedded:
* JSON values (the payloads Flask's `request.get_json` produces and
  `json.dumps` / `json.loads` consume) are the inductive type `JVal`.
  Python numbers are `int` (arbitrary-precision `Int`), `float`
  (modelled as the decimal value `m / 10^e`, which is exact for the
  literals appearing in requests and responses), and `bool` — Python's
  `bool` is a subtype of `int`, which the embedding keeps visible in
  `isPyNumeric` and in `%.2f` formatting.
* The two collaborators (Open-Meteo and Google Cloud Storage) are
  modelled by their observable outcomes: the fetch result is a function
  supplied in `StoreEnv`, and GCS list/read outcomes are small inductive
  types covering each `except` arm of gcs_client.py.
* Each Flask handler becomes a pure function from its inputs to an
  outcome paired with the list of collaborator invocations (`Effect`)
  it performed, so "X is never invoked" claims are statable.
-/

/-- A JSON value as produced by `request.get_json` / `json.loads`.
Python floats are embedded as exact decimals `m * 10^(-e)`. -/
inductive JVal where
  | null
  | bool (b : Bool)
  | int (n : Int)
  | float (m : Int) (e : Nat)
  | str (s : String)
  | arr (xs : List JVal)
  | obj (fs : List (String × JVal))

/-- Python truthiness (`bool(x)`) for JSON-decoded values: `None`, `False`,
`0`, `0.0`, `""`, `[]` and `{}` (written here as the empty field list) are
falsy, everything else truthy.  This is what `if not req_data:` tests. -/
def JVal.isTruthy : JVal → Bool
  | .null => false
  | .bool b => b
  | .int n => n != 0
  | .float m _ => m != 0
  | .str s => s != ""
  | .arr xs => !xs.isEmpty
  | .obj fs => !fs.isEmpty

/-- `isinstance(x, (int, float))`: true for Python ints, floats and also
bools, since Python's `bool` is a subclass of `int`. -/
def isPyNumeric : JVal → Bool
  | .int _ => true
  | .float _ _ => true
  | .bool _ => true
  | _ => false

/-- `req_data.get(key)` on the dict produced by JSON decoding, with the
handler's `value is None` convention folded in: a key that is absent, or
present with JSON `null` value, gives `none`.  JSON object decoding keeps
the last occurrence of a duplicated key, hence the left fold. -/
def dictGet (fs : List (String × JVal)) (k : String) : Option JVal :=
  let raw : Option JVal := fs.foldl (fun acc p => if p.1 = k then some p.2 else acc) none
  match raw with
  | some JVal.null => none
  | some v => some v
  | none => none

/-! ### Decimal digits -/

/-- The character for a decimal digit `0 ≤ n ≤ 9`. -/
def digitChar (n : Nat) : Char := Char.ofNat (48 + n)

/-- ASCII decimal digit test (the `\d` of CPython's `_strptime` regexes,
restricted to ASCII in this embedding, and the digits of JSON numerals). -/
def isD (c : Char) : Bool :=
  c = '0' || c = '1' || c = '2' || c = '3' || c = '4' ||
  c = '5' || c = '6' || c = '7' || c = '8' || c = '9'

/-- Numeric value of a decimal digit character. -/
def dval (c : Char) : Nat :=
  if c = '0' then 0 else if c = '1' then 1 else if c = '2' then 2
  else if c = '3' then 3 else if c = '4' then 4 else if c = '5' then 5
  else if c = '6' then 6 else if c = '7' then 7 else if c = '8' then 8
  else if c = '9' then 9 else 0

/-- Fuel-driven worker for `natDigits` (fuel keeps it structurally
recursive, so that concrete instances evaluate inside the kernel). -/
def natDigitsAux : Nat → Nat → List Char
  | 0, _ => []
  | fuel + 1, n =>
    if n < 10 then [digitChar n]
    else natDigitsAux fuel (n / 10) ++ [digitChar (n % 10)]

/-- Decimal digit string of a natural number, as Python's `str`/`repr`
renders it (no sign, no leading zeros except for `0` itself). -/
def natDigits (n : Nat) : List Char := natDigitsAux (n + 1) n

/-- Value of a list of digit characters read left to right. -/
def digitsVal (ds : List Char) : Nat := ds.foldl (fun a c => 10 * a + dval c) 0

/-! ### `f"{x:.2f}"` — fixed-point formatting with two decimals -/

/-- Round `p / q` (with `q > 0`) to the nearest integer, ties to even:
the rounding CPython's float formatting applies. -/
def roundHalfEvenDiv (p q : Int) : Int :=
  let f := Int.fdiv p q
  let r := p - f * q
  if 2 * r < q then f
  else if 2 * r > q then f + 1
  else if f % 2 = 0 then f else f + 1

/-- Two digit, zero padded rendering of `n < 100`. -/
def pad2 (n : Nat) : List Char := if n < 10 then '0' :: natDigits n else natDigits n

/-- Render `n / 100` with exactly two decimals; `n` is the value already
scaled by 100 and rounded. -/
def fmt2Chars (n : Int) : List Char :=
  (if n < 0 then ['-'] else []) ++ natDigits (n.natAbs / 100) ++ '.' :: pad2 (n.natAbs % 100)

/-- `f"{x:.2f}"` for the values the handler lets through its
`isinstance(x, (int, float))` check.  A Python bool formats as its
integer value (`True` → `"1.00"`).  The catch-all arm is unreachable in
the endpoint: the type check precedes every use. -/
def pyFormat2f : JVal → List Char
  | .int n => fmt2Chars (n * 100)
  | .bool b => fmt2Chars ((if b then 1 else 0) * 100)
  | .float m e => fmt2Chars (roundHalfEvenDiv (m * 100) ((10 : Int) ^ e))
  | _ => []

/-- `f"{x:.2f}".replace('.', '_')` — the coordinate token of the storage
key. -/
def coordToken (v : JVal) : String :=
  String.mk ((pyFormat2f v).map (fun c => if c = '.' then '_' else c))

/-- `date_str.replace("-", "")`. -/
def stripHyphens (s : String) : String :=
  String.mk (s.data.filter (fun c => c ≠ '-'))

/-- `generate_filename` from app.py: underscore-encoded 2-decimal
coordinates plus hyphen-stripped dates. -/
def generate_filename (latitude longitude : JVal) (start_date_str end_date_str : String) :
    String :=
  let start_date_fn := stripHyphens start_date_str
  let end_date_fn := stripHyphens end_date_str
  let lat_str := coordToken latitude
  let lon_str := coordToken longitude
  "weather_lat" ++ lat_str ++ "_lon" ++ lon_str ++ "_from" ++ start_date_fn ++
    "_to" ++ end_date_fn ++ ".json"

/-! ### `datetime.strptime(s, '%Y-%m-%d')` — the date validator

CPython's `_strptime` compiles the format to the regex
`(?P<Y>\d\d\d\d)\-(?P<m>1[0-2]|0[1-9]|[1-9])\-(?P<d>3[01]|[12]\d|0[1-9]|[1-9])`,
matches it at the start of the string (backtracking across the
alternatives), raises `ValueError` when unconverted data remains, and
finally builds a `datetime`, which re-raises `ValueError` for an invalid
calendar date (day out of range for the month, year outside 1..9999). -/

/-- The `%m` alternatives `1[0-2] | 0[1-9] | [1-9]`, in regex priority
order, each returning the month value and the unconsumed input. -/
def monthCands : List Char → List (Nat × List Char)
  | a :: b :: rest =>
    (if a = '1' ∧ (b = '0' ∨ b = '1' ∨ b = '2') then [(10 + dval b, rest)] else []) ++
    (if a = '0' ∧ isD b = true ∧ b ≠ '0' then [(dval b, rest)] else []) ++
    (if isD a = true ∧ a ≠ '0' then [(dval a, b :: rest)] else [])
  | [a] => if isD a = true ∧ a ≠ '0' then [(dval a, [])] else []
  | [] => []

/-- The `%d` alternatives `3[01] | [12]\d | 0[1-9] | [1-9]`, in regex
priority order. -/
def dayCands : List Char → List (Nat × List Char)
  | a :: b :: rest =>
    (if a = '3' ∧ (b = '0' ∨ b = '1') then [(30 + dval b, rest)] else []) ++
    (if (a = '1' ∨ a = '2') ∧ isD b = true then [(10 * dval a + dval b, rest)] else []) ++
    (if a = '0' ∧ isD b = true ∧ b ≠ '0' then [(dval b, rest)] else []) ++
    (if isD a = true ∧ a ≠ '0' then [(dval a, b :: rest)] else [])
  | [a] => if isD a = true ∧ a ≠ '0' then [(dval a, [])] else []
  | [] => []

/-- The compiled `%Y-%m-%d` regex matched at the start of the input:
four digits, a literal hyphen, a month alternative whose continuation
(the second literal hyphen followed by a day alternative) succeeds —
`findSome?` realizes the regex engine's left-to-right backtracking. -/
def regexMatchYMD (l : List Char) : Option (Nat × Nat × Nat × List Char) :=
  match l with
  | y1 :: y2 :: y3 :: y4 :: '-' :: rest =>
    if isD y1 = true ∧ isD y2 = true ∧ isD y3 = true ∧ isD y4 = true then
      (monthCands rest).findSome? fun mc =>
        match mc.2 with
        | '-' :: r2 => (dayCands r2).head?.map fun dc =>
            (digitsVal [y1, y2, y3, y4], mc.1, dc.1, dc.2)
        | _ => none
    else none
  | _ => none

/-- Python/Gregorian leap year rule (`datetime`'s). -/
def isLeapYear (y : Nat) : Bool := y % 4 = 0 && (y % 100 != 0 || y % 400 = 0)

/-- Days in a month, per `datetime`. -/
def daysInMonth (y m : Nat) : Nat :=
  if m = 2 then (if isLeapYear y then 29 else 28)
  else if m = 4 ∨ m = 6 ∨ m = 9 ∨ m = 11 then 30
  else 31

/-- The `datetime(y, m, d)` constructor's validity condition (with
`y ≤ 9999` implied here by the four-digit year). -/
def validDate (y m d : Nat) : Bool :=
  decide (1 ≤ m) && decide (m ≤ 12) && decide (1 ≤ d) && decide (d ≤ daysInMonth y m)

/-- `datetime.strptime(s, '%Y-%m-%d')`: regex match, "unconverted data
remains" check, then calendar validation (`1 ≤ year` from `MINYEAR`). -/
def strptimeYMD (s : String) : Option (Nat × Nat × Nat) :=
  match regexMatchYMD s.data with
  | some (y, m, d, rest) =>
    if rest = [] ∧ 1 ≤ y ∧ validDate y m d = true then some (y, m, d) else none
  | none => none

/-- `validate_date_format` from app.py: `strptime` wrapped in
`try/except ValueError`. -/
def validate_date_format (date_str : String) : Bool := (strptimeYMD date_str).isSome

/-- The date test the endpoint applies to each date field:
`isinstance(x, str) and validate_date_format(x)`. -/
def dateFieldOk : JVal → Bool
  | .str s => validate_date_format s
  | _ => false

/-- The payload string of a JSON string value (used only under a
`dateFieldOk` guard, mirroring Python's reliance on the isinstance
check). -/
def asStr : JVal → String
  | .str s => s
  | _ => ""

/-! ### `json.dumps(x, indent=2)` and `json.loads`

The handler serializes the fetched record with `json.dumps(..., indent=2)`
(pretty printing: items one per line, indented two further spaces per
nesting level, `", "`-free separators `(',', ': ')`), and
`get_gcs_file_content` parses stored text back with `json.loads`.  The
parser below covers the JSON sublanguage `json.dumps` emits for the
values `wfJ` admits: numerals without exponent notation, and strings of
printable ASCII (CPython's default `ensure_ascii=True` escapes everything
else as `\uXXXX`, which this embedding leaves out). -/

/-- The `"` character (kept as a named constant for readable guards). -/
def qchar : Char := Char.ofNat 34

/-- The backslash character. -/
def bslash : Char := Char.ofNat 92

/-- Opening curly bracket. -/
def lbrace : Char := Char.ofNat 123

/-- Closing curly bracket. -/
def rbrace : Char := Char.ofNat 125

/-- JSON insignificant whitespace (what `json.loads` skips). -/
def isWs (c : Char) : Bool := c = ' ' || c = '\n' || c = '\t' || c = '\r'

/-- Drop leading JSON whitespace. -/
def skipWs : List Char → List Char
  | [] => []
  | c :: rest => if isWs c then skipWs rest else c :: rest

/-- `indent`-many spaces. -/
def indentL (n : Nat) : List Char := List.replicate n ' '

/-- Escaping of one character inside a dumped JSON string: quote and
backslash get a backslash; `wfJ` strings contain no other character
`json.dumps` would escape. -/
def escChar (c : Char) : List Char :=
  if c = qchar then [bslash, qchar]
  else if c = bslash then [bslash, bslash]
  else [c]

/-- Escape a whole string body. -/
def escChars : List Char → List Char
  | [] => []
  | c :: cs => escChar c ++ escChars cs

/-- Digit string of an integer, with sign (Python's `repr` for ints). -/
def intChars (n : Int) : List Char :=
  if n < 0 then '-' :: natDigits n.natAbs else natDigits n.natAbs

/-- Left-pad a digit string with zeros to length `e`. -/
def padZeros (e : Nat) (ds : List Char) : List Char :=
  List.replicate (e - ds.length) '0' ++ ds

/-- Decimal rendering of the float `m * 10^(-e)` (sign, integer part,
point, exactly `e` fractional digits) — `repr` of the embedded float. -/
def floatChars (m : Int) (e : Nat) : List Char :=
  (if m < 0 then ['-'] else []) ++
    natDigits (m.natAbs / 10 ^ e) ++ '.' :: padZeros e (natDigits (m.natAbs % 10 ^ e))

mutual

/-- `json.dumps(v, indent=2)` as a character list, at enclosing
indentation `ind`. -/
def dumpValL (ind : Nat) : JVal → List Char
  | .null => "null".data
  | .bool true => "true".data
  | .bool false => "false".data
  | .int n => intChars n
  | .float m e => floatChars m e
  | .str s => qchar :: escChars s.data ++ [qchar]
  | .arr [] => ['[', ']']
  | .arr (x :: xs) =>
    '[' :: '\n' :: (dumpItemsL (ind + 2) (x :: xs) ++ '\n' :: (indentL ind ++ [']']))
  | .obj [] => [lbrace, rbrace]
  | .obj (f :: fs) =>
    lbrace :: '\n' :: (dumpFieldsL (ind + 2) (f :: fs) ++ '\n' :: (indentL ind ++ [rbrace]))

/-- The comma-and-newline separated items of a dumped array, each on its
own indented line. -/
def dumpItemsL (ind : Nat) : List JVal → List Char
  | [] => []
  | [x] => indentL ind ++ dumpValL ind x
  | x :: y :: ys => indentL ind ++ dumpValL ind x ++ ',' :: '\n' :: dumpItemsL ind (y :: ys)

/-- The fields of a dumped object: `"key": value` pairs, one per
indented line. -/
def dumpFieldsL (ind : Nat) : List (String × JVal) → List Char
  | [] => []
  | [(k, v)] => indentL ind ++ (qchar :: escChars k.data ++ [qchar]) ++ ':' :: ' ' :: dumpValL ind v
  | (k, v) :: g :: gs =>
    indentL ind ++ (qchar :: escChars k.data ++ [qchar]) ++ ':' :: ' ' :: dumpValL ind v ++
      ',' :: '\n' :: dumpFieldsL ind (g :: gs)

end

/-- `json.dumps(v, indent=2)`. -/
def dumps (v : JVal) : String := String.mk (dumpValL 0 v)

/-- Unescaping after a backslash inside a JSON string literal. -/
def unescape (c : Char) : Option Char :=
  if c = qchar then some qchar
  else if c = bslash then some bslash
  else if c = '/' then some '/'
  else if c = 'n' then some '\n'
  else if c = 't' then some '\t'
  else if c = 'r' then some '\r'
  else if c = 'b' then some (Char.ofNat 8)
  else if c = 'f' then some (Char.ofNat 12)
  else none

/-- Parse the body of a JSON string literal after the opening quote,
returning the decoded characters and the input after the closing
quote. -/
def parseStrChars : List Char → Option (List Char × List Char)
  | [] => none
  | c :: rest =>
    if c = qchar then some ([], rest)
    else if c = bslash then
      match rest with
      | [] => none
      | e :: rest2 =>
        match unescape e with
        | some d =>
          match parseStrChars rest2 with
          | some (cs, r) => some (d :: cs, r)
          | none => none
        | none => none
    else
      match parseStrChars rest with
      | some (cs, r) => some (c :: cs, r)
      | none => none

/-- Take the maximal prefix of decimal digits. -/
def takeDigits : List Char → List Char × List Char
  | [] => ([], [])
  | c :: rest =>
    if isD c then
      let p := takeDigits rest
      (c :: p.1, p.2)
    else ([], c :: rest)

/-- Parse a JSON numeral after the optional minus (without exponent
notation): integer part with no superfluous leading zero, and an
optional fraction which makes the result a float — exactly how
`json.loads` distinguishes Python `int` from `float`. -/
def parseNumAfterSign (neg : Bool) (l1 : List Char) : Option (JVal × List Char) :=
  match takeDigits l1 with
  | ([], _) => none
  | (ds, l2) =>
    if 1 < ds.length ∧ ds.head? = some '0' then none
    else if l2.head? = some '.' then
      match takeDigits l2.tail with
      | ([], _) => none
      | (fs, l4) =>
        let a : Int := (digitsVal ds * 10 ^ fs.length + digitsVal fs : Nat)
        some (.float (if neg then -a else a) fs.length, l4)
    else
      let a : Int := (digitsVal ds : Nat)
      some (.int (if neg then -a else a), l2)

/-- Parse a JSON numeral: optional minus, then the digits. -/
def parseNumber (l : List Char) : Option (JVal × List Char) :=
  if l.head? = some '-' then parseNumAfterSign true l.tail
  else parseNumAfterSign false l

mutual

/-- `json.loads`'s recursive-descent value parser.  The fuel argument
only bounds recursion depth (it exceeds the input length at the top
level, which is ample since every recursive call consumes input). -/
def parseVal : Nat → List Char → Option (JVal × List Char)
  | 0, _ => none
  | fuel + 1, input =>
    match skipWs input with
    | [] => none
    | c :: rest =>
      if c = 'n' then
        match rest with
        | 'u' :: 'l' :: 'l' :: r => some (.null, r)
        | _ => none
      else if c = 't' then
        match rest with
        | 'r' :: 'u' :: 'e' :: r => some (.bool true, r)
        | _ => none
      else if c = 'f' then
        match rest with
        | 'a' :: 'l' :: 's' :: 'e' :: r => some (.bool false, r)
        | _ => none
      else if c = qchar then
        match parseStrChars rest with
        | some (cs, r) => some (.str (String.mk cs), r)
        | none => none
      else if c = '[' then
        let r2 := skipWs rest
        if r2.head? = some ']' then some (.arr [], r2.tail)
        else
          match parseItems fuel r2 with
          | some (vs, r3) => some (.arr vs, r3)
          | none => none
      else if c = lbrace then
        let r2 := skipWs rest
        if r2.head? = some rbrace then some (.obj [], r2.tail)
        else
          match parseFields fuel r2 with
          | some (fs, r3) => some (.obj fs, r3)
          | none => none
      else if c = '-' ∨ isD c = true then parseNumber (c :: rest)
      else none

/-- Items of a non-empty JSON array: value, then `,` and more items or
the closing bracket. -/
def parseItems : Nat → List Char → Option (List JVal × List Char)
  | 0, _ => none
  | fuel + 1, input =>
    match parseVal fuel input with
    | some (v, r) =>
      match skipWs r with
      | ',' :: r2 =>
        match parseItems fuel r2 with
        | some (vs, r3) => some (v :: vs, r3)
        | none => none
      | ']' :: r2 => some ([v], r2)
      | _ => none
    | none => none

/-- Fields of a non-empty JSON object: quoted key, colon, value, then
`,` and more fields or the closing bracket. -/
def parseFields : Nat → List Char → Option (List (String × JVal) × List Char)
  | 0, _ => none
  | fuel + 1, input =>
    match skipWs input with
    | [] => none
    | c :: rest =>
      if c = qchar then
        match parseStrChars rest with
        | some (k, r1) =>
          match skipWs r1 with
          | ':' :: r2 =>
            match parseVal fuel r2 with
            | some (v, r3) =>
              match skipWs r3 with
              | ',' :: r4 =>
                match parseFields fuel r4 with
                | some (gs, r5) => some ((String.mk k, v) :: gs, r5)
                | none => none
              | r5 =>
                if r5.head? = some rbrace then some ([(String.mk k, v)], r5.tail) else none
            | none => none
          | _ => none
        | none => none
      else none

end

/-- `json.loads`: parse one value, then require only trailing whitespace. -/
def loads (s : String) : Option JVal :=
  match parseVal (s.data.length + 1) s.data with
  | some (v, rest) => if skipWs rest = [] then some v else none
  | none => none

/-- Printable-ASCII test: characters `json.dumps` passes through
unescaped (other than quote and backslash). -/
def asciiOk (c : Char) : Bool := decide (32 ≤ c.toNat) && decide (c.toNat ≤ 126)

/-- All characters printable ASCII. -/
def allAscii : List Char → Bool
  | [] => true
  | c :: r => asciiOk c && allAscii r

mutual

/-- JSON-representability of an embedded value: floats carry at least one
fractional digit (Python float `repr` always prints one) and strings are
printable ASCII. -/
def wfJ : JVal → Bool
  | .null => true
  | .bool _ => true
  | .int _ => true
  | .float _ e => decide (1 ≤ e)
  | .str s => allAscii s.data
  | .arr xs => wfL xs
  | .obj fs => wfF fs

/-- `wfJ` on every element. -/
def wfL : List JVal → Bool
  | [] => true
  | x :: xs => wfJ x && wfL xs

/-- `wfJ` on every field value, printable-ASCII keys. -/
def wfF : List (String × JVal) → Bool
  | [] => true
  | f :: fs => allAscii f.1.data && wfJ f.2 && wfF fs

end

mutual

/-- Recursion-depth bound of `parseVal` on the output of `dumpValL`. -/
def jfuel : JVal → Nat
  | .arr [] => 1
  | .arr (x :: xs) => 1 + itemsFuel (x :: xs)
  | .obj [] => 1
  | .obj (f :: fs) => 1 + fieldsFuel (f :: fs)
  | _ => 1

/-- Depth bound for `parseItems`. -/
def itemsFuel : List JVal → Nat
  | [] => 0
  | x :: xs => 1 + max (jfuel x) (itemsFuel xs)

/-- Depth bound for `parseFields`. -/
def fieldsFuel : List (String × JVal) → Nat
  | [] => 0
  | (_, v) :: gs => 1 + max (jfuel v) (fieldsFuel gs)

end

/-! ### gcs_client.py — the Object Store Client

`storage_client` initialization and every GCS exception arm collapse to
observable outcomes; the functions below reproduce the success/None (or
success/False) normalization of gcs_client.py. -/

/-- Outcome of the underlying `list_blobs` interaction (including the
module-level client having failed to initialize, and each `except`
arm). -/
inductive GcsListOutcome where
  | clientUninitialized
  | bucketNotFound
  | forbidden
  | otherError
  | blobs (names : List String)

/-- Prefix test on object names (the server-side `prefix=` filter of
`list_blobs`). -/
def strStartsWith (s p : String) : Bool := p.data.isPrefixOf s.data

/-- `list_gcs_files`: `None` on any failure, otherwise the blob names
matching the prefix. -/
def list_gcs_files (gcs : GcsListOutcome) (pre : String) : Option (List String) :=
  match gcs with
  | .blobs names => some (names.filter (fun n => strStartsWith n pre))
  | _ => none

/-- Outcome of the blob download interaction for one key: client broken,
bucket/object missing, permission denied, transport error, or the raw
text body. -/
inductive BlobFetch where
  | clientUninitialized
  | bucketNotFound
  | forbidden
  | absent
  | otherError
  | body (text : String)

/-- `get_gcs_file_content`: `None` unless the object exists and its body
parses as JSON (`json.loads`), in which case the parsed value. -/
def get_gcs_file_content (blob : BlobFetch) : Option JVal :=
  match blob with
  | .body text => loads text
  | _ => none

/-- Outcome of the blob upload interaction. -/
inductive UploadOutcome where
  | clientUninitialized
  | bucketNotFound
  | forbidden
  | otherError
  | success

/-- `upload_to_gcs`: `True` exactly on success. -/
def upload_to_gcs (u : UploadOutcome) : Bool :=
  match u with
  | .success => true
  | _ => false

/-- The durable object store itself: key/value text objects.  A write
creates or overwrites; reading finds the most recent write. -/
def GcsStore := List (String × String)

/-- `blob.upload_from_string` under a key. -/
def gcsWrite (st : GcsStore) (key content : String) : GcsStore := (key, content) :: st

/-- Read a key's text body back (`blob.download_as_text` when the blob
exists). -/
def gcsReadText (st : GcsStore) (key : String) : Option String :=
  match st with
  | [] => none
  | (k, v) :: rest => if k = key then some v else gcsReadText rest key

/-- `get_gcs_file_content` against a concrete store: download the text
body and parse it as JSON. -/
def gcsReadJson (st : GcsStore) (key : String) : Option JVal :=
  match gcsReadText st key with
  | some text => loads text
  | none => none

/-! ### app.py — the Request Orchestrator -/

/-- A collaborator invocation performed by a handler. -/
inductive Effect where
  | fetchCall (latitude longitude : JVal) (start_date end_date : String)
  | uploadCall (bucket key content : String)
  | listCall (bucket pre : String)
  | readCall (bucket key : String)

/-- The request body as the handler sees it: `request.get_json()` raised
(body absent or not valid JSON), or it produced a JSON value. -/
inductive ReqBody where
  | malformed
  | parsed (v : JVal)

/-- The distinct responses of `store_weather_data_endpoint`. -/
inductive StoreResult where
  | misconfigured
  | noPayload
  | malformedJson
  | missingParams (ks : List String)
  | invalidType
  | invalidDate
  | upstreamFailed
  | writeFailed
  | created (fileName gcsPath : String)

/-- HTTP status of each store response, straight from the handler's
`jsonify(...), code` pairs. -/
def StoreResult.statusCode : StoreResult → Nat
  | .misconfigured => 500
  | .noPayload => 400
  | .malformedJson => 400
  | .missingParams _ => 400
  | .invalidType => 400
  | .invalidDate => 400
  | .upstreamFailed => 502
  | .writeFailed => 500
  | .created _ _ => 201

/-- `", ".join(ks)`. -/
def joinSep (sep : String) : List String → String
  | [] => ""
  | [x] => x
  | x :: y :: ys => x ++ sep ++ joinSep sep (y :: ys)

/-- The `error` field of each failure response body (the literal strings
of app.py); `none` for the 201 success body. -/
def StoreResult.errorMessage : StoreResult → Option String
  | .misconfigured => some "Server configuration error: GCS bucket not set."
  | .noPayload => some "Invalid request: No JSON payload received."
  | .malformedJson => some "Invalid request: Malformed JSON."
  | .missingParams ks => some ("Missing parameters: " ++ joinSep ", " ks)
  | .invalidType => some "Invalid data type for latitude or longitude. Must be float or integer."
  | .invalidDate => some "Invalid date format for start_date or end_date. Use YYYY-MM-DD."
  | .upstreamFailed => some "Failed to fetch weather data from external API."
  | .writeFailed => some "Failed to store weather data in GCS."
  | .created _ _ => none

/-- A handler run either returns a response or lets a Python exception
escape (Flask then produces a generic 500, none of the handler's own
JSON errors). -/
inductive StoreOutcome where
  | resp (r : StoreResult)
  | unhandled (excName : String)

/-- HTTP status of an outcome; an exception escaping the handler becomes
Flask's 500 Internal Server Error. -/
def StoreOutcome.statusCode : StoreOutcome → Nat
  | .resp r => r.statusCode
  | .unhandled _ => 500

/-- The process environment and collaborators of the store handler:
`GCS_BUCKET_NAME` (absent, or a string that may be empty — both falsy),
the Open-Meteo fetch outcome per query, and the upload outcome per
write. -/
structure StoreEnv where
  gcsBucketName : Option String
  fetchWeather : JVal → JVal → String → String → Option JVal
  uploadOk : String → String → String → Bool

/-- `if not GCS_BUCKET_NAME:` — `None` and the empty string are falsy. -/
def bucketOk : Option String → Option String
  | none => none
  | some b => if b = "" then none else some b

/-- The required-parameter names, in the handler's dict order. -/
def requiredParams : List String := ["latitude", "longitude", "start_date", "end_date"]

/-- The missing-parameter list the handler computes. -/
def missingOf (fs : List (String × JVal)) : List String :=
  requiredParams.filter (fun k => (dictGet fs k).isNone)

/-- `store_weather_data_endpoint` from app.py, as a function from the
environment and request body to the outcome and the collaborator calls
made.  The branch structure mirrors the handler line by line; the only
rephrasing is that the `missing_params` check and the subsequent uses of
the four values are expressed as one four-way `match` (the handler
returns the missing-parameter 400 exactly when at least one of the four
`get` results is `None`, and proceeds with all four values otherwise).
A truthy body that is not a JSON object reaches `req_data.get(...)`,
which raises `AttributeError` — no handler `except` catches it. -/
def store_weather_data_endpoint (env : StoreEnv) (body : ReqBody) :
    StoreOutcome × List Effect :=
  match bucketOk env.gcsBucketName with
  | none => (.resp .misconfigured, [])
  | some bucket =>
    match body with
    | .malformed => (.resp .malformedJson, [])
    | .parsed reqData =>
      if reqData.isTruthy = false then (.resp .noPayload, [])
      else
        match reqData with
        | .obj fs =>
          match dictGet fs "latitude", dictGet fs "longitude",
              dictGet fs "start_date", dictGet fs "end_date" with
          | some lat, some lon, some sd, some ed =>
            if (isPyNumeric lat && isPyNumeric lon) = false then (.resp .invalidType, [])
            else if (dateFieldOk sd && dateFieldOk ed) = false then (.resp .invalidDate, [])
            else
              let sds := asStr sd
              let eds := asStr ed
              match env.fetchWeather lat lon sds eds with
              | none => (.resp .upstreamFailed, [.fetchCall lat lon sds eds])
              | some weatherData =>
                let fileName := generate_filename lat lon sds eds
                let content := dumps weatherData
                if env.uploadOk bucket fileName content then
                  (.resp (.created fileName ("gs://" ++ bucket ++ "/" ++ fileName)),
                   [.fetchCall lat lon sds eds, .uploadCall bucket fileName content])
                else
                  (.resp .writeFailed,
                   [.fetchCall lat lon sds eds, .uploadCall bucket fileName content])
          | _, _, _, _ => (.resp (.missingParams (missingOf fs)), [])
        | _ => (.unhandled "AttributeError", [])

/-- Responses of `list_weather_files_endpoint`. -/
inductive ListResult where
  | misconfigured
  | listFailed
  | ok (files : List String) (bucket : String)

/-- HTTP status of each list response. -/
def ListResult.statusCode : ListResult → Nat
  | .misconfigured => 500
  | .listFailed => 500
  | .ok _ _ => 200

/-- `list_weather_files_endpoint` from app.py: misconfiguration check,
then `list_gcs_files(bucket, prefix="weather_")`, mapping `None` to the
500 and a list to the 200 body `{files, bucket}`. -/
def list_weather_files_endpoint (bucket : Option String) (gcs : GcsListOutcome) :
    ListResult × List Effect :=
  match bucketOk bucket with
  | none => (.misconfigured, [])
  | some b =>
    match list_gcs_files gcs "weather_" with
    | none => (.listFailed, [.listCall b "weather_"])
    | some files => (.ok files b, [.listCall b "weather_"])

/-- Responses of `weather_file_content_endpoint`. -/
inductive ContentResult where
  | misconfigured
  | emptyFileName
  | notFoundOrUnparseable (fileName : String)
  | ok (content : JVal)

/-- HTTP status of each content response. -/
def ContentResult.statusCode : ContentResult → Nat
  | .misconfigured => 500
  | .emptyFileName => 400
  | .notFoundOrUnparseable _ => 404
  | .ok _ => 200

/-- `weather_file_content_endpoint` from app.py: misconfiguration check,
empty-name 400, then `get_gcs_file_content`, mapping `None` to the 404
and a parsed value to a 200 with the value verbatim. -/
def weather_file_content_endpoint (bucket : Option String) (fileName : String)
    (blob : BlobFetch) : ContentResult × List Effect :=
  match bucketOk bucket with
  | none => (.misconfigured, [])
  | some b =>
    if fileName = "" then (.emptyFileName, [])
    else
      match get_gcs_file_content blob with
      | none => (.notFoundOrUnparseable fileName, [.readCall b fileName])
      | some content => (.ok content, [.readCall b fileName])

/-- The index route: a fixed 200 acknowledgment, no failure modes. -/
def index_endpoint : Nat × String := (200, "Welcome to the Weather Data Service API!")

/-! ### Shape descriptors used by the parser/printer round-trip proof -/

/-- All characters JSON whitespace. -/
def allWs : List Char → Bool
  | [] => true
  | c :: r => isWs c && allWs r

/-- The context right after a dumped numeral never continues with a digit
or a decimal point (it is a separator, a closing bracket, or the end). -/
def restOk : List Char → Bool
  | [] => true
  | c :: _ => !(isD c) && !(c = '.')

/-- What follows the first dumped item of an array: for each further
item, a comma, a newline, the indentation, and the item itself. -/
def afterItems (ind : Nat) : List JVal → List Char
  | [] => []
  | y :: ys => ',' :: '\n' :: (indentL ind ++ (dumpValL ind y ++ afterItems ind ys))

/-- One dumped object field: quoted key, colon, space, value. -/
def kvChars (ind : Nat) (k : String) (v : JVal) : List Char :=
  qchar :: (escChars k.data ++ [qchar] ++ ':' :: ' ' :: dumpValL ind v)

/-- What follows the first dumped field of an object. -/
def afterFields (ind : Nat) : List (String × JVal) → List Char
  | [] => []
  | (k, v) :: gs => ',' :: '\n' :: (indentL ind ++ (kvChars ind k v ++ afterFields ind gs))

/-- The write-then-read pipeline of the service against a concrete
object store: serialize with `json.dumps(..., indent=2)`, write under the
key, read the key back and parse with `json.loads` — the composition of
`upload_to_gcs`'s payload with `get_gcs_file_content`'s body handling. -/
def writeThenRead (st : GcsStore) (key : String) (w : JVal) : Option JVal :=
  gcsReadJson (gcsWrite st key (dumps w)) key

/-- A month or day representation the `%m`/`%d` alternatives can
produce: one digit or two digits. -/
def digitsRep (ds : List Char) : Prop :=
  (∃ a, ds = [a] ∧ isD a = true) ∨ (∃ a b, ds = [a, b] ∧ isD a = true ∧ isD b = true)

/-- Declarative characterization of the strings `validate_date_format`
accepts: four year digits, hyphen, a one- or two-digit month, hyphen, a
one- or two-digit day, with year at least 1 and a real calendar date. -/
def dateAcceptedSpec (s : String) : Prop :=
  ∃ y1 y2 y3 y4 ms ds,
    s.data = y1 :: y2 :: y3 :: y4 :: '-' :: (ms ++ '-' :: ds) ∧
    isD y1 = true ∧ isD y2 = true ∧ isD y3 = true ∧ isD y4 = true ∧
    digitsRep ms ∧ digitsRep ds ∧
    1 ≤ digitsVal [y1, y2, y3, y4] ∧
    1 ≤ digitsVal ms ∧ digitsVal ms ≤ 12 ∧
    1 ≤ digitsVal ds ∧
    digitsVal ds ≤ daysInMonth (digitsVal [y1, y2, y3, y4]) (digitsVal ms)

/-- The date shape in the words of the spec: the exact zero-padded
ten-character `YYYY-MM-DD` calendar pattern.  This definition follows
the specification text, for comparison with the validator the code
implements. -/
def dateZeroPaddedSpec (s : String) : Bool :=
  match s.data with
  | [y1, y2, y3, y4, h1, m1, m2, h2, d1, d2] =>
    h1 == '-' && h2 == '-' && isD y1 && isD y2 && isD y3 && isD y4 &&
    isD m1 && isD m2 && isD d1 && isD d2 &&
    decide (1 ≤ digitsVal [y1, y2, y3, y4]) &&
    validDate (digitsVal [y1, y2, y3, y4]) (digitsVal [m1, m2]) (digitsVal [d1, d2])
  | _ => false

/-! ## Claims -/

/-- Claim C1, counterexample.  A POST body parsing as the empty JSON
object is falsy in Python, so `if not req_data:` fires and the handler
answers with the "No JSON payload received" 400 — not with the
MissingParameters 400 naming the four absent keys that the claim
asserts.  (The status is 400 either way; the response is the wrong
one.) -/
theorem C1_counterexample :
    store_weather_data_endpoint
        ⟨some "test-bucket", fun _ _ _ _ => none, fun _ _ _ => true⟩
        (.parsed (.obj [])) = (.resp .noPayload, []) ∧
    StoreResult.noPayload.statusCode = 400 ∧
    StoreResult.noPayload.errorMessage = some "Invalid request: No JSON payload received." ∧
    StoreResult.noPayload ≠ .missingParams ["latitude", "longitude", "start_date", "end_date"] ∧
    StoreResult.noPayload.errorMessage ≠
      (StoreResult.missingParams ["latitude", "longitude", "start_date", "end_date"]).errorMessage :=
  ⟨rfl, rfl, rfl, fun h => StoreResult.noConfusion h, by decide⟩

/-- Claim C1, amended.  A POST whose body parses as the empty JSON
object `\x7b\x7d` returns the 400 "No JSON payload received" error (the
empty dict is falsy and is rejected as an absent payload before
parameter extraction); a *truthy* JSON object in which all four keys are
absent (or null) returns 400 with the MissingParameters error naming all
four, in order. -/
theorem C1_missing_params (env : StoreEnv) (b : String) (fs : List (String × JVal))
    (hb : env.gcsBucketName = some b) (hbne : b ≠ "") (hfs : fs ≠ [])
    (h1 : dictGet fs "latitude" = none) (h2 : dictGet fs "longitude" = none)
    (h3 : dictGet fs "start_date" = none) (h4 : dictGet fs "end_date" = none) :
    store_weather_data_endpoint env (.parsed (.obj [])) = (.resp .noPayload, []) ∧
    store_weather_data_endpoint env (.parsed (.obj fs)) =
      (.resp (.missingParams ["latitude", "longitude", "start_date", "end_date"]), []) ∧
    (StoreResult.missingParams ["latitude", "longitude", "start_date", "end_date"]).statusCode
      = 400 ∧
    (StoreResult.missingParams ["latitude", "longitude", "start_date", "end_date"]).errorMessage
      = some "Missing parameters: latitude, longitude, start_date, end_date" := by
  refine ⟨?_, ?_, rfl, rfl⟩
  · simp [store_weather_data_endpoint, bucketOk, hb, hbne, JVal.isTruthy]
  · simp [store_weather_data_endpoint, bucketOk, hb, hbne, JVal.isTruthy, hfs,
      h1, h2, h3, h4, missingOf, requiredParams]

/-- Witness for C1: at the concrete truthy body `\x7b"extra": 1\x7d` the
amended claim produces the four-name MissingParameters 400. -/
theorem C1_missing_params_witness :
    store_weather_data_endpoint
        ⟨some "bkt", fun _ _ _ _ => none, fun _ _ _ => false⟩
        (.parsed (.obj [("extra", .int 1)])) =
      (.resp (.missingParams ["latitude", "longitude", "start_date", "end_date"]), []) :=
  (C1_missing_params ⟨some "bkt", fun _ _ _ _ => none, fun _ _ _ => false⟩ "bkt"
    [("extra", .int 1)] rfl (fun h => by simp at h) (List.cons_ne_nil _ _)
    rfl rfl rfl rfl).2.1

/-- Claim C3.  The storage key is a pure function of the four request
values: each coordinate formatted to exactly two decimals with the dot
replaced by an underscore, the dates hyphen-stripped, composed as
`weather_lat{LAT}_lon{LON}_from{START}_to{END}.json`; in particular
`deriveKey(52.52, 13.41, "2023-03-01", "2023-03-03")` is the expected
string (and `13.4` renders as `13_40`). -/
theorem C3_storage_key :
    (∀ lat lon sd ed, generate_filename lat lon sd ed =
      "weather_lat" ++ coordToken lat ++ "_lon" ++ coordToken lon ++
        "_from" ++ stripHyphens sd ++ "_to" ++ stripHyphens ed ++ ".json") ∧
    (∀ lat lon sd ed, generate_filename lat lon sd ed = generate_filename lat lon sd ed) ∧
    generate_filename (.float 5252 2) (.float 1341 2) "2023-03-01" "2023-03-03" =
      "weather_lat52_52_lon13_41_from20230301_to20230303.json" ∧
    coordToken (.float 5252 2) = "52_52" ∧
    coordToken (.float 134 1) = "13_40" ∧
    stripHyphens "2023-03-01" = "20230301" :=
  ⟨fun _ _ _ _ => rfl, fun _ _ _ _ => rfl, by decide, by decide, by decide, by decide⟩

/-- Claim C4.  On a fully validated request whose fetch yields the null
outcome, the handler answers 502 UpstreamFetchFailed having performed
exactly the one fetch call — in particular no upload is ever invoked. -/
theorem C4_fetch_failure_no_write (env : StoreEnv) (b : String)
    (fs : List (String × JVal)) (lat lon sd ed : JVal)
    (hb : env.gcsBucketName = some b) (hbne : b ≠ "")
    (h1 : dictGet fs "latitude" = some lat) (h2 : dictGet fs "longitude" = some lon)
    (h3 : dictGet fs "start_date" = some sd) (h4 : dictGet fs "end_date" = some ed)
    (hlat : isPyNumeric lat = true) (hlon : isPyNumeric lon = true)
    (hsd : dateFieldOk sd = true) (hed : dateFieldOk ed = true)
    (hfetch : env.fetchWeather lat lon (asStr sd) (asStr ed) = none) :
    store_weather_data_endpoint env (.parsed (.obj fs)) =
      (.resp .upstreamFailed, [.fetchCall lat lon (asStr sd) (asStr ed)]) ∧
    StoreResult.upstreamFailed.statusCode = 502 ∧
    ∀ bu key content, Effect.uploadCall bu key content ∉
      [Effect.fetchCall lat lon (asStr sd) (asStr ed)] := by
  have hne : fs ≠ [] := by
    intro h
    rw [h] at h1
    simp [dictGet] at h1
  refine ⟨?_, rfl, ?_⟩
  · simp [store_weather_data_endpoint, bucketOk, hb, hbne, JVal.isTruthy, hne,
      h1, h2, h3, h4, hlat, hlon, hsd, hed, hfetch]
  · intro bu key content
    simp

/-- Witness for C4 at a concrete validated request whose fetch fails. -/
theorem C4_fetch_failure_no_write_witness :
    store_weather_data_endpoint
        ⟨some "bkt", fun _ _ _ _ => none, fun _ _ _ => true⟩
        (.parsed (.obj [("latitude", .float 5252 2), ("longitude", .float 1341 2),
          ("start_date", .str "2023-03-01"), ("end_date", .str "2023-03-03")])) =
      (.resp .upstreamFailed,
       [.fetchCall (.float 5252 2) (.float 1341 2) "2023-03-01" "2023-03-03"]) :=
  (C4_fetch_failure_no_write ⟨some "bkt", fun _ _ _ _ => none, fun _ _ _ => true⟩ "bkt"
    [("latitude", .float 5252 2), ("longitude", .float 1341 2),
     ("start_date", .str "2023-03-01"), ("end_date", .str "2023-03-03")]
    (.float 5252 2) (.float 1341 2) (.str "2023-03-01") (.str "2023-03-03")
    rfl (fun h => by simp at h) rfl rfl rfl rfl rfl rfl (by decide) (by decide) rfl).1

/-- Claim C5.  With the bucket identifier unset (absent or empty, both
falsy), each of the three bucket-dependent handlers answers the fixed
500 ServerMisconfigured without invoking any collaborator, while the
health check stays a fixed 200. -/
theorem C5_misconfigured (env : StoreEnv) (body : ReqBody) (gcs : GcsListOutcome)
    (fileName : String) (blob : BlobFetch)
    (hb : env.gcsBucketName = none ∨ env.gcsBucketName = some "") :
    store_weather_data_endpoint env body = (.resp .misconfigured, []) ∧
    list_weather_files_endpoint env.gcsBucketName gcs = (.misconfigured, []) ∧
    weather_file_content_endpoint env.gcsBucketName fileName blob = (.misconfigured, []) ∧
    StoreOutcome.statusCode (.resp .misconfigured) = 500 ∧
    ListResult.misconfigured.statusCode = 500 ∧
    ContentResult.misconfigured.statusCode = 500 ∧
    StoreResult.misconfigured.errorMessage =
      some "Server configuration error: GCS bucket not set." ∧
    index_endpoint = (200, "Welcome to the Weather Data Service API!") := by
  have hnone : bucketOk env.gcsBucketName = none := by
    rcases hb with h | h <;> simp [bucketOk, h]
  refine ⟨?_, ?_, ?_, rfl, rfl, rfl, rfl, rfl⟩
  · simp [store_weather_data_endpoint, hnone]
  · simp [list_weather_files_endpoint, hnone]
  · simp [weather_file_content_endpoint, hnone]

/-- Witness for C5 with the bucket variable entirely absent. -/
theorem C5_misconfigured_witness :
    store_weather_data_endpoint ⟨none, fun _ _ _ _ => none, fun _ _ _ => false⟩
        (.parsed (.obj [])) = (.resp .misconfigured, []) ∧
    list_weather_files_endpoint none (.blobs ["weather_a.json"]) = (.misconfigured, []) ∧
    weather_file_content_endpoint none "x.json" (.body "1") = (.misconfigured, []) :=
  ⟨(C5_misconfigured ⟨none, fun _ _ _ _ => none, fun _ _ _ => false⟩ (.parsed (.obj []))
      (.blobs ["weather_a.json"]) "x.json" (.body "1") (Or.inl rfl)).1,
   (C5_misconfigured ⟨none, fun _ _ _ _ => none, fun _ _ _ => false⟩ (.parsed (.obj []))
      (.blobs ["weather_a.json"]) "x.json" (.body "1") (Or.inl rfl)).2.1,
   (C5_misconfigured ⟨none, fun _ _ _ _ => none, fun _ _ _ => false⟩ (.parsed (.obj []))
      (.blobs ["weather_a.json"]) "x.json" (.body "1") (Or.inl rfl)).2.2.1⟩

/-- Claim C9.  A JSON boolean passes the handler's
`isinstance(x, (int, float))` check (Python `bool` is an `int`
subclass), so a request whose coordinates are booleans is never rejected
with InvalidType, and the storage key renders `true` as `1_00` and
`false` as `0_00`. -/
theorem C9_bool_coordinates (env : StoreEnv) (b : String)
    (fs : List (String × JVal)) (b1 b2 : Bool) (sd ed : JVal)
    (hb : env.gcsBucketName = some b) (hbne : b ≠ "")
    (h1 : dictGet fs "latitude" = some (.bool b1))
    (h2 : dictGet fs "longitude" = some (.bool b2))
    (h3 : dictGet fs "start_date" = some sd) (h4 : dictGet fs "end_date" = some ed)
    (hsd : dateFieldOk sd = true) (hed : dateFieldOk ed = true) :
    (store_weather_data_endpoint env (.parsed (.obj fs))).1 ≠ .resp .invalidType ∧
    isPyNumeric (.bool b1) = true ∧
    coordToken (.bool b1) = (if b1 then "1_00" else "0_00") ∧
    generate_filename (.bool true) (.bool false) (asStr sd) (asStr ed) =
      "weather_lat1_00_lon0_00_from" ++ stripHyphens (asStr sd) ++ "_to" ++
        stripHyphens (asStr ed) ++ ".json" := by
  have hne : fs ≠ [] := by
    intro h
    rw [h] at h1
    simp [dictGet] at h1
  refine ⟨?_, rfl, by cases b1 <;> decide, rfl⟩
  simp only [store_weather_data_endpoint, bucketOk, hb, hbne, if_neg, JVal.isTruthy]
  cases hfetch : env.fetchWeather (.bool b1) (.bool b2) (asStr sd) (asStr ed) with
  | none =>
    simp [hne, h1, h2, h3, h4, hsd, hed, hfetch, isPyNumeric]
  | some w =>
    simp only [hne, h1, h2, h3, h4, hsd, hed, hfetch, isPyNumeric]
    simp only [Bool.and_self, JVal.isTruthy, List.isEmpty_eq_true, hne, Bool.not_false,
      Bool.true_eq_false, if_neg]
    by_cases hup : env.uploadOk b
      (generate_filename (.bool b1) (.bool b2) (asStr sd) (asStr ed)) (dumps w) = true
    · simp [hne, hup]
    · simp [hne, hup]

/-- Witness for C9: booleans as both coordinates, valid dates, failing
fetch — the outcome is the 502, not InvalidType. -/
theorem C9_bool_coordinates_witness :
    (store_weather_data_endpoint ⟨some "bkt", fun _ _ _ _ => none, fun _ _ _ => true⟩
        (.parsed (.obj [("latitude", .bool true), ("longitude", .bool false),
          ("start_date", .str "2023-03-01"), ("end_date", .str "2023-03-03")]))).1 ≠
      .resp .invalidType ∧
    coordToken (.bool true) = "1_00" :=
  ⟨(C9_bool_coordinates ⟨some "bkt", fun _ _ _ _ => none, fun _ _ _ => true⟩ "bkt"
      [("latitude", .bool true), ("longitude", .bool false),
       ("start_date", .str "2023-03-01"), ("end_date", .str "2023-03-03")]
      true false (.str "2023-03-01") (.str "2023-03-03")
      rfl (fun h => by simp at h) rfl rfl rfl rfl (by decide) (by decide)).1,
   (C9_bool_coordinates ⟨some "bkt", fun _ _ _ _ => none, fun _ _ _ => true⟩ "bkt"
      [("latitude", .bool true), ("longitude", .bool false),
       ("start_date", .str "2023-03-01"), ("end_date", .str "2023-03-03")]
      true false (.str "2023-03-01") (.str "2023-03-03")
      rfl (fun h => by simp at h) rfl rfl rfl rfl (by decide) (by decide)).2.2.1⟩

/-- Claim C10.  A body that parses to a truthy non-object JSON value
reaches `req_data.get('latitude')`, which raises `AttributeError`; no
`except` in the handler catches it, so none of the four specified 400
responses (nor any handler response) is produced — Flask turns the
escaped exception into a generic 500. -/
theorem C10_truthy_non_object (env : StoreEnv) (b : String) (v : JVal)
    (hb : env.gcsBucketName = some b) (hbne : b ≠ "")
    (htruthy : v.isTruthy = true) (hobj : ∀ fs, v ≠ .obj fs) :
    store_weather_data_endpoint env (.parsed v) = (.unhandled "AttributeError", []) ∧
    (∀ r : StoreResult, StoreOutcome.unhandled "AttributeError" ≠ .resp r) ∧
    StoreOutcome.statusCode (.unhandled "AttributeError") = 500 := by
  refine ⟨?_, fun r h => StoreOutcome.noConfusion h, rfl⟩
  cases v with
  | obj fs => exact absurd rfl (hobj fs)
  | null => simp [JVal.isTruthy] at htruthy
  | bool b2 => simp [store_weather_data_endpoint, bucketOk, hb, hbne, htruthy]
  | int n => simp [store_weather_data_endpoint, bucketOk, hb, hbne, htruthy]
  | float m e => simp [store_weather_data_endpoint, bucketOk, hb, hbne, htruthy]
  | str s => simp [store_weather_data_endpoint, bucketOk, hb, hbne, htruthy]
  | arr xs => simp [store_weather_data_endpoint, bucketOk, hb, hbne, htruthy]

/-- Witness for C10 at the truthy non-object body `[1]`. -/
theorem C10_truthy_non_object_witness :
    store_weather_data_endpoint ⟨some "bkt", fun _ _ _ _ => none, fun _ _ _ => true⟩
        (.parsed (.arr [.int 1])) = (.unhandled "AttributeError", []) :=
  (C10_truthy_non_object ⟨some "bkt", fun _ _ _ _ => none, fun _ _ _ => true⟩ "bkt"
    (.arr [.int 1]) rfl (fun h => by simp at h) rfl
    (fun fs h => JVal.noConfusion h)).1

/-- Claim C6.  `get_gcs_file_content` collapses "object absent",
"permission denied" and "body not valid JSON" into the same `None`, and
the handler maps `None` to the 404 FileNotFoundOrUnparseable and any
parsed value to a 200 carrying that value verbatim.  The stored text
`not json` (no quotes — not a JSON document) is one concrete unparseable
body. -/
theorem C6_content_read (bucket fileName : String) (blob : BlobFetch)
    (hbne : bucket ≠ "") (hfne : fileName ≠ "") :
    (get_gcs_file_content blob = none →
      weather_file_content_endpoint (some bucket) fileName blob =
        (.notFoundOrUnparseable fileName, [.readCall bucket fileName]) ∧
      (ContentResult.notFoundOrUnparseable fileName).statusCode = 404) ∧
    (∀ v, get_gcs_file_content blob = some v →
      weather_file_content_endpoint (some bucket) fileName blob =
        (.ok v, [.readCall bucket fileName]) ∧
      (ContentResult.ok v).statusCode = 200) ∧
    get_gcs_file_content .absent = none ∧
    get_gcs_file_content .forbidden = none ∧
    (∀ text, loads text = none → get_gcs_file_content (.body text) = none) ∧
    get_gcs_file_content (.body "not json") = none := by
  refine ⟨?_, ?_, rfl, rfl, ?_, rfl⟩
  · intro hnone
    constructor
    · simp [weather_file_content_endpoint, bucketOk, hbne, hfne, hnone]
    · rfl
  · intro v hsome
    constructor
    · simp [weather_file_content_endpoint, bucketOk, hbne, hfne, hsome]
    · rfl
  · intro text htext
    simp [get_gcs_file_content, htext]

/-- Witness for C6: a present but unparseable object body and a present
parseable one. -/
theorem C6_content_read_witness :
    weather_file_content_endpoint (some "bkt") "x.json" (.body "not json") =
      (.notFoundOrUnparseable "x.json", [.readCall "bkt" "x.json"]) ∧
    weather_file_content_endpoint (some "bkt") "y.json" (.body "7") =
      (.ok (.int 7), [.readCall "bkt" "y.json"]) :=
  ⟨((C6_content_read "bkt" "x.json" (.body "not json") (by decide) (by decide)).1 rfl).1,
   ((C6_content_read "bkt" "y.json" (.body "7") (by decide) (by decide)).2.1 (.int 7) rfl).1⟩

/-- Claim C7.  The listing handler answers the 500 StorageListFailed
exactly when `list_gcs_files` returns `None`; a list — even the empty
one, when nothing matches the fixed `weather_` prefix — is a 200 with
`\x7bfiles, bucket\x7d`. -/
theorem C7_list_files (bucket : String) (gcs : GcsListOutcome) (names : List String)
    (hbne : bucket ≠ "") :
    ((list_weather_files_endpoint (some bucket) gcs).1 = .listFailed ↔
      list_gcs_files gcs "weather_" = none) ∧
    ListResult.listFailed.statusCode = 500 ∧
    list_gcs_files (.blobs names) "weather_" =
      some (names.filter (fun n => strStartsWith n "weather_")) ∧
    (names.filter (fun n => strStartsWith n "weather_") = [] →
      list_weather_files_endpoint (some bucket) (.blobs names) =
        (.ok [] bucket, [.listCall bucket "weather_"]) ∧
      (ListResult.ok [] bucket).statusCode = 200) := by
  refine ⟨?_, rfl, rfl, ?_⟩
  · cases gcs <;> simp [list_weather_files_endpoint, list_gcs_files, bucketOk, hbne]
  · intro hempty
    constructor
    · simp [list_weather_files_endpoint, list_gcs_files, bucketOk, hbne, hempty]
    · rfl

/-- Witness for C7: a bucket holding only non-matching names lists as an
empty 200. -/
theorem C7_list_files_witness :
    list_weather_files_endpoint (some "bkt") (.blobs ["other/notes.txt"]) =
      (.ok [] "bkt", [.listCall "bkt" "weather_"]) :=
  ((C7_list_files "bkt" (.blobs ["other/notes.txt"]) ["other/notes.txt"]
    (by decide)).2.2.2 (by decide)).1

/-! ### Digit-string lemmas -/

theorem natDigitsAux_irrel (n : Nat) : ∀ f1 f2, n < f1 → n < f2 →
    natDigitsAux f1 n = natDigitsAux f2 n := by
  induction n using Nat.strong_induction_on with
  | _ n ih =>
    intro f1 f2 h1 h2
    match f1, f2 with
    | g1 + 1, g2 + 1 =>
      simp only [natDigitsAux]
      by_cases hn : n < 10
      · simp [hn]
      · have hd : n / 10 < n := Nat.div_lt_self (by omega) (by omega)
        rw [if_neg hn, if_neg hn, ih (n / 10) hd g1 g2 (by omega) (by omega)]

theorem natDigits_rec (n : Nat) :
    natDigits n = if n < 10 then [digitChar n] else natDigits (n / 10) ++ [digitChar (n % 10)] := by
  by_cases hn : n < 10
  · simp [natDigits, natDigitsAux, hn]
  · have hd : n / 10 < n := Nat.div_lt_self (by omega) (by omega)
    have h1 : natDigits n = natDigitsAux n (n / 10) ++ [digitChar (n % 10)] := by
      simp only [natDigits, natDigitsAux, hn, if_false]
    rw [h1, natDigitsAux_irrel (n / 10) n (n / 10 + 1) hd (by omega), if_neg hn]
    rfl

theorem isD_digitChar (n : Nat) (h : n < 10) : isD (digitChar n) = true := by
  interval_cases n <;> decide

theorem dval_digitChar (n : Nat) (h : n < 10) : dval (digitChar n) = n := by
  interval_cases n <;> decide

theorem natDigits_cons (n : Nat) :
    ∃ c cs, natDigits n = c :: cs ∧ isD c = true ∧ (n = 0 ∨ c ≠ '0') := by
  induction n using Nat.strong_induction_on with
  | _ n ih =>
    rw [natDigits_rec]
    by_cases hn : n < 10
    · refine ⟨digitChar n, [], by simp [hn], isD_digitChar n hn, ?_⟩
      interval_cases n <;> decide
    · obtain ⟨c, cs, hrec, hd, hz⟩ := ih (n / 10) (Nat.div_lt_self (by omega) (by omega))
      refine ⟨c, cs ++ [digitChar (n % 10)], by simp [hn, hrec], hd, Or.inr ?_⟩
      rcases hz with hz | hz
      · omega
      · exact hz

theorem natDigits_all_isD (n : Nat) : ∀ c ∈ natDigits n, isD c = true := by
  induction n using Nat.strong_induction_on with
  | _ n ih =>
    rw [natDigits_rec]
    by_cases hn : n < 10
    · simp only [hn, if_true, List.mem_singleton]
      intro c hc
      subst hc
      exact isD_digitChar n hn
    · simp only [hn, if_false, List.mem_append, List.mem_singleton]
      intro c hc
      rcases hc with hc | hc
      · exact ih (n / 10) (Nat.div_lt_self (by omega) (by omega)) c hc
      · subst hc
        exact isD_digitChar (n % 10) (Nat.mod_lt n (by omega))

theorem digitsVal_append (a b : List Char) :
    digitsVal (a ++ b) = b.foldl (fun x c => 10 * x + dval c) (digitsVal a) := by
  simp [digitsVal, List.foldl_append]

theorem digitsVal_natDigits (n : Nat) : digitsVal (natDigits n) = n := by
  induction n using Nat.strong_induction_on with
  | _ n ih =>
    rw [natDigits_rec]
    by_cases hn : n < 10
    · simp only [hn, if_true, digitsVal, List.foldl_cons, List.foldl_nil]
      rw [dval_digitChar n hn]
      omega
    · simp only [hn, if_false]
      rw [digitsVal_append]
      simp only [List.foldl_cons, List.foldl_nil]
      rw [ih (n / 10) (Nat.div_lt_self (by omega) (by omega)),
        dval_digitChar (n % 10) (Nat.mod_lt n (by omega))]
      omega

theorem natDigits_length_le (k : Nat) : ∀ n, n < 10 ^ k → 1 ≤ k → (natDigits n).length ≤ k := by
  induction k with
  | zero => omega
  | succ k ihk =>
    intro n hn _
    rw [natDigits_rec]
    by_cases h10 : n < 10
    · simp only [h10, if_true, List.length_singleton]
      omega
    · have hk1 : 1 ≤ k := by
        by_contra hk
        have : k = 0 := by omega
        subst this
        simp at hn
        omega
      have : n / 10 < 10 ^ k := by
        rw [pow_succ] at hn
        omega
      simp only [h10, if_false, List.length_append, List.length_singleton]
      have := ihk (n / 10) this hk1
      omega

/-! ### Whitespace lemmas -/

theorem skipWs_ws (c : Char) (l : List Char) (h : isWs c = true) :
    skipWs (c :: l) = skipWs l := by
  simp [skipWs, h]

theorem skipWs_not_ws (c : Char) (l : List Char) (h : isWs c = false) :
    skipWs (c :: l) = c :: l := by
  simp [skipWs, h]

theorem skipWs_allWs (p : List Char) (l : List Char) (h : allWs p = true) :
    skipWs (p ++ l) = skipWs l := by
  induction p with
  | nil => simp
  | cons c p ih =>
    simp only [allWs, Bool.and_eq_true] at h
    rw [List.cons_append, skipWs_ws c _ h.1, ih h.2]

theorem allWs_indentL (n : Nat) : allWs (indentL n) = true := by
  induction n with
  | zero => rfl
  | succ n ih =>
    simp only [indentL, List.replicate_succ, allWs, Bool.and_eq_true]
    exact ⟨by decide, by simpa [indentL] using ih⟩

/-! ### Characters: decimal digits and the delimiters -/

theorem isD_cases (c : Char) (h : isD c = true) :
    c = '0' ∨ c = '1' ∨ c = '2' ∨ c = '3' ∨ c = '4' ∨
    c = '5' ∨ c = '6' ∨ c = '7' ∨ c = '8' ∨ c = '9' := by
  simpa [isD, or_assoc] using h

theorem isD_facts (c : Char) (h : isD c = true) :
    isWs c = false ∧ c ≠ 'n' ∧ c ≠ 't' ∧ c ≠ 'f' ∧ c ≠ qchar ∧ c ≠ '[' ∧
    c ≠ lbrace ∧ c ≠ ']' ∧ c ≠ rbrace ∧ c ≠ '.' ∧ c ≠ ',' ∧ c ≠ ':' ∧
    c ≠ '-' ∧ c ≠ '\n' := by
  rcases isD_cases c h with h | h | h | h | h | h | h | h | h | h <;> subst h <;> decide

/-! ### String-literal round trip -/

theorem parseStr_escChars (cs : List Char) : ∀ rest,
    parseStrChars (escChars cs ++ qchar :: rest) = some (cs, rest) := by
  induction cs with
  | nil =>
    intro rest
    rw [show escChars [] ++ qchar :: rest = qchar :: rest from rfl, parseStrChars.eq_def]
    simp
  | cons c cs ih =>
    intro rest
    by_cases h1 : c = qchar
    · subst h1
      rw [show escChars (qchar :: cs) ++ qchar :: rest =
        bslash :: qchar :: (escChars cs ++ qchar :: rest) by simp [escChars, escChar],
        parseStrChars.eq_def]
      simp [unescape, ih, show ¬bslash = qchar by decide]
    · by_cases h2 : c = bslash
      · subst h2
        rw [show escChars (bslash :: cs) ++ qchar :: rest =
          bslash :: bslash :: (escChars cs ++ qchar :: rest) by
            simp [escChars, escChar, show ¬bslash = qchar by decide],
          parseStrChars.eq_def]
        simp [unescape, ih, show ¬bslash = qchar by decide]
      · rw [show escChars (c :: cs) ++ qchar :: rest =
          c :: (escChars cs ++ qchar :: rest) by simp [escChars, escChar, h1, h2],
          parseStrChars.eq_def]
        simp [h1, h2, ih]

/-! ### Numeral round trip -/

theorem takeDigits_append (ds : List Char) (rest : List Char)
    (hds : ∀ c ∈ ds, isD c = true)
    (hrest : ∀ c, rest.head? = some c → isD c = false) :
    takeDigits (ds ++ rest) = (ds, rest) := by
  induction ds with
  | nil =>
    cases rest with
    | nil => rfl
    | cons c r =>
      have := hrest c rfl
      simp [takeDigits, this]
  | cons d ds ih =>
    have hd : isD d = true := hds d (List.mem_cons_self d ds)
    have ih2 := ih (fun c hc => hds c (List.mem_cons_of_mem d hc))
    simp [takeDigits, hd, ih2]

theorem digitsVal_replicate_zero (z : Nat) (ds : List Char) :
    digitsVal (List.replicate z '0' ++ ds) = digitsVal ds := by
  have hz : digitsVal (List.replicate z '0') = 0 := by
    induction z with
    | zero => rfl
    | succ z ihz => simpa [digitsVal, List.replicate_succ, show dval '0' = 0 from rfl] using ihz
  rw [digitsVal_append, hz]
  rfl

theorem padZeros_length (e : Nat) (ds : List Char) (h : ds.length ≤ e) :
    (padZeros e ds).length = e := by
  simp [padZeros]
  omega

theorem padZeros_all_isD (e : Nat) (ds : List Char) (h : ∀ c ∈ ds, isD c = true) :
    ∀ c ∈ padZeros e ds, isD c = true := by
  intro c hc
  rcases List.mem_append.mp hc with hc | hc
  · rw [List.eq_of_mem_replicate hc]
    decide
  · exact h c hc

theorem digitsVal_padZeros (e : Nat) (ds : List Char) :
    digitsVal (padZeros e ds) = digitsVal ds := digitsVal_replicate_zero _ ds

theorem natDigits_no_leading_zero (a : Nat) :
    ¬(1 < (natDigits a).length ∧ (natDigits a).head? = some '0') := by
  rintro ⟨hlen, hhead⟩
  obtain ⟨c, cs, hnd, hd, hz⟩ := natDigits_cons a
  rw [hnd] at hhead hlen
  simp at hhead
  rcases hz with hz | hz
  · subst hz
    have h0 : natDigits 0 = ['0'] := by decide
    rw [h0] at hnd
    have : cs = [] := by
      cases hnd
      rfl
    rw [this] at hlen
    simp at hlen
  · exact hz hhead

theorem restOk_head_not_digit (rest : List Char) (h : restOk rest = true) :
    ∀ c, rest.head? = some c → isD c = false := by
  intro c hc
  cases rest with
  | nil => simp at hc
  | cons r0 rr =>
    simp at hc
    subst hc
    simp only [restOk, Bool.and_eq_true, Bool.not_eq_true'] at h
    exact h.1

theorem restOk_head_not_dot (rest : List Char) (h : restOk rest = true) :
    rest.head? ≠ some '.' := by
  intro hc
  cases rest with
  | nil => simp at hc
  | cons r0 rr =>
    simp at hc
    simp only [restOk, Bool.and_eq_true, Bool.not_eq_true'] at h
    rw [hc] at h
    simp at h

theorem parseNumAfterSign_int (neg : Bool) (a : Nat) (rest : List Char)
    (hrest : restOk rest = true) :
    parseNumAfterSign neg (natDigits a ++ rest) =
      some (.int (if neg then -(a : Int) else (a : Int)), rest) := by
  obtain ⟨c, cs, hnd, hd, _⟩ := natDigits_cons a
  have htd : takeDigits (natDigits a ++ rest) = (c :: cs, rest) := by
    rw [takeDigits_append _ _ (natDigits_all_isD a) (restOk_head_not_digit rest hrest), hnd]
  have hlz := natDigits_no_leading_zero a
  rw [hnd] at hlz
  have hval : digitsVal (c :: cs) = a := by
    rw [← hnd]
    exact digitsVal_natDigits a
  simp only [parseNumAfterSign, htd]
  rw [if_neg hlz, if_neg (restOk_head_not_dot rest hrest), hval]

theorem parseNumber_intChars (n : Int) (rest : List Char) (hrest : restOk rest = true) :
    parseNumber (intChars n ++ rest) = some (.int n, rest) := by
  by_cases hneg : n < 0
  · rw [show intChars n ++ rest = '-' :: (natDigits n.natAbs ++ rest) by
      simp [intChars, hneg]]
    rw [parseNumber]
    simp only [List.head?_cons, Option.some.injEq, if_pos rfl, List.tail_cons]
    rw [if_pos trivial, parseNumAfterSign_int true n.natAbs rest hrest, if_pos rfl,
      show -((n.natAbs : Nat) : Int) = n by omega]
  · have hic : intChars n = natDigits n.natAbs := by simp [intChars, hneg]
    obtain ⟨c, cs, hnd, hd, _⟩ := natDigits_cons n.natAbs
    have hfacts := isD_facts c hd
    rw [hic, parseNumber]
    rw [if_neg (by
      rw [hnd]
      simp only [List.cons_append, List.head?_cons, Option.some.injEq]
      exact fun h => hfacts.2.2.2.2.2.2.2.2.2.2.2.2.1 h)]
    rw [parseNumAfterSign_int false n.natAbs rest hrest, if_neg (by simp),
      show ((n.natAbs : Nat) : Int) = n by omega]

theorem parseNumAfterSign_float (neg : Bool) (ip fp e : Nat) (he : 1 ≤ e)
    (hfp : fp < 10 ^ e) (rest : List Char) (hrest : restOk rest = true) :
    parseNumAfterSign neg (natDigits ip ++ '.' :: (padZeros e (natDigits fp) ++ rest)) =
      some (.float (if neg then -((ip * 10 ^ e + fp : Nat) : Int)
        else ((ip * 10 ^ e + fp : Nat) : Int)) e, rest) := by
  obtain ⟨c, cs, hnd, hd, _⟩ := natDigits_cons ip
  have htd : takeDigits (natDigits ip ++ '.' :: (padZeros e (natDigits fp) ++ rest)) =
      (c :: cs, '.' :: (padZeros e (natDigits fp) ++ rest)) := by
    rw [takeDigits_append _ _ (natDigits_all_isD ip)
      (by intro c2 hc2; simp at hc2; subst hc2; decide), hnd]
  have hlz := natDigits_no_leading_zero ip
  rw [hnd] at hlz
  have hfraclen : (padZeros e (natDigits fp)).length = e :=
    padZeros_length e _ (natDigits_length_le e fp hfp he)
  have hfracne : padZeros e (natDigits fp) ≠ [] := by
    intro h
    rw [h] at hfraclen
    simp at hfraclen
    omega
  obtain ⟨f0, ftail, hfrac⟩ : ∃ f0 ftail, padZeros e (natDigits fp) = f0 :: ftail := by
    cases hpz : padZeros e (natDigits fp) with
    | nil => exact absurd hpz hfracne
    | cons f0 ftail => exact ⟨f0, ftail, rfl⟩
  have htd2 : takeDigits (padZeros e (natDigits fp) ++ rest) =
      (f0 :: ftail, rest) := by
    rw [takeDigits_append _ _ (padZeros_all_isD e _ (natDigits_all_isD fp))
      (restOk_head_not_digit rest hrest), hfrac]
  have hfval : digitsVal (f0 :: ftail) = fp := by
    rw [← hfrac, digitsVal_padZeros]
    exact digitsVal_natDigits fp
  have hflen : (f0 :: ftail).length = e := by
    rw [← hfrac]
    exact hfraclen
  have hipval : digitsVal (c :: cs) = ip := by
    rw [← hnd]
    exact digitsVal_natDigits ip
  simp only [parseNumAfterSign, htd]
  rw [if_neg hlz]
  simp only [List.head?_cons, Option.some.injEq, if_pos rfl, List.tail_cons, if_true]
  simp only [htd2, hfval, hflen, hipval]

theorem parseNumber_floatChars (m : Int) (e : Nat) (he : 1 ≤ e) (rest : List Char)
    (hrest : restOk rest = true) :
    parseNumber (floatChars m e ++ rest) = some (.float m e, rest) := by
  have hfp : m.natAbs % 10 ^ e < 10 ^ e := Nat.mod_lt _ (by positivity)
  have hdm : m.natAbs / 10 ^ e * 10 ^ e + m.natAbs % 10 ^ e = m.natAbs := by
    rw [Nat.mul_comm]
    exact Nat.div_add_mod m.natAbs (10 ^ e)
  by_cases hneg : m < 0
  · rw [show floatChars m e ++ rest =
      '-' :: (natDigits (m.natAbs / 10 ^ e) ++ '.' :: (padZeros e (natDigits (m.natAbs % 10 ^ e)) ++ rest)) by
        simp [floatChars, hneg]]
    rw [parseNumber]
    simp only [List.head?_cons, Option.some.injEq, if_pos rfl, List.tail_cons]
    rw [if_pos trivial,
      parseNumAfterSign_float true (m.natAbs / 10 ^ e) (m.natAbs % 10 ^ e) e he hfp rest hrest,
      if_pos rfl]
    rw [show -(((m.natAbs / 10 ^ e * 10 ^ e + m.natAbs % 10 ^ e : Nat)) : Int) = m by
      rw [hdm]; omega]
  · have hic : floatChars m e =
        natDigits (m.natAbs / 10 ^ e) ++ '.' :: padZeros e (natDigits (m.natAbs % 10 ^ e)) := by
      simp [floatChars, hneg]
    obtain ⟨c, cs, hnd, hd, _⟩ := natDigits_cons (m.natAbs / 10 ^ e)
    have hfacts := isD_facts c hd
    rw [hic]
    rw [show (natDigits (m.natAbs / 10 ^ e) ++ '.' :: padZeros e (natDigits (m.natAbs % 10 ^ e))) ++ rest =
      natDigits (m.natAbs / 10 ^ e) ++ '.' :: (padZeros e (natDigits (m.natAbs % 10 ^ e)) ++ rest) by
        simp]
    rw [parseNumber]
    rw [if_neg (by
      rw [hnd]
      simp only [List.cons_append, List.head?_cons, Option.some.injEq]
      exact fun h => hfacts.2.2.2.2.2.2.2.2.2.2.2.2.1 h)]
    rw [parseNumAfterSign_float false (m.natAbs / 10 ^ e) (m.natAbs % 10 ^ e) e he hfp rest hrest,
      if_neg (by simp)]
    rw [show (((m.natAbs / 10 ^ e * 10 ^ e + m.natAbs % 10 ^ e : Nat)) : Int) = m by
      rw [hdm]; omega]

/-! ### Shape of dumped values -/

theorem dumpValL_cons (ind : Nat) (v : JVal) :
    ∃ c cs, dumpValL ind v = c :: cs ∧ isWs c = false ∧ c ≠ ']' := by
  cases v with
  | null => exact ⟨'n', _, rfl, by decide, by decide⟩
  | bool b => cases b with
    | true => exact ⟨'t', _, rfl, by decide, by decide⟩
    | false => exact ⟨'f', _, rfl, by decide, by decide⟩
  | int n =>
    by_cases hneg : n < 0
    · exact ⟨'-', natDigits n.natAbs, by simp [dumpValL, intChars, hneg], by decide, by decide⟩
    · obtain ⟨c, cs, hnd, hd, _⟩ := natDigits_cons n.natAbs
      have hfacts := isD_facts c hd
      exact ⟨c, cs, by simp [dumpValL, intChars, hneg, hnd], hfacts.1,
        hfacts.2.2.2.2.2.2.2.1⟩
  | float m e =>
    by_cases hneg : m < 0
    · exact ⟨'-', natDigits (m.natAbs / 10 ^ e) ++
        '.' :: padZeros e (natDigits (m.natAbs % 10 ^ e)),
        by simp [dumpValL, floatChars, hneg], by decide, by decide⟩
    · obtain ⟨c, cs, hnd, hd, _⟩ := natDigits_cons (m.natAbs / 10 ^ e)
      have hfacts := isD_facts c hd
      refine ⟨c, cs ++ ('.' :: padZeros e (natDigits (m.natAbs % 10 ^ e))), ?_, hfacts.1,
        hfacts.2.2.2.2.2.2.2.1⟩
      simp [dumpValL, floatChars, hneg, hnd]
  | str s =>
    exact ⟨qchar, escChars s.data ++ [qchar], by simp [dumpValL], by decide, by decide⟩
  | arr xs => cases xs with
    | nil => exact ⟨'[', _, rfl, by decide, by decide⟩
    | cons x xs => exact ⟨'[', _, rfl, by decide, by decide⟩
  | obj fs => cases fs with
    | nil => exact ⟨lbrace, _, rfl, by decide, by decide⟩
    | cons f fs =>
      obtain ⟨k, v⟩ := f
      exact ⟨lbrace, _, rfl, by decide, by decide⟩

theorem dumpItemsL_decomp (ind : Nat) (x : JVal) (xs : List JVal) :
    dumpItemsL ind (x :: xs) = indentL ind ++ (dumpValL ind x ++ afterItems ind xs) := by
  induction xs generalizing x with
  | nil => simp [dumpItemsL, afterItems]
  | cons y ys ih =>
    simp only [dumpItemsL, afterItems]
    rw [ih y]
    simp [List.append_assoc]

theorem dumpFieldsL_decomp (ind : Nat) (k : String) (v : JVal) (fs : List (String × JVal)) :
    dumpFieldsL ind ((k, v) :: fs) = indentL ind ++ (kvChars ind k v ++ afterFields ind fs) := by
  induction fs generalizing k v with
  | nil => simp [dumpFieldsL, afterFields, kvChars]
  | cons g gs ih =>
    obtain ⟨k2, v2⟩ := g
    simp only [dumpFieldsL, afterFields, kvChars]
    rw [ih k2 v2]
    simp [kvChars, List.append_assoc]

/-! ### Fuel arithmetic -/

theorem jfuel_pos (v : JVal) : 1 ≤ jfuel v := by
  cases v with
  | arr xs => cases xs <;> simp [jfuel]
  | obj fs =>
    cases fs with
    | nil => simp [jfuel]
    | cons f fs =>
      obtain ⟨k, v⟩ := f
      simp [jfuel]
  | null => simp [jfuel]
  | bool b => simp [jfuel]
  | int n => simp [jfuel]
  | float m e => simp [jfuel]
  | str s => simp [jfuel]

theorem jfuel_bound : ∀ n : Nat,
    (∀ v ind, sizeOf v ≤ n → jfuel v ≤ (dumpValL ind v).length) ∧
    (∀ x xs ind, sizeOf x + sizeOf xs ≤ n →
      itemsFuel (x :: xs) ≤ (dumpItemsL (ind + 2) (x :: xs)).length) ∧
    (∀ k v gs ind, sizeOf v + sizeOf gs ≤ n →
      fieldsFuel ((k, v) :: gs) ≤ (dumpFieldsL (ind + 2) ((k, v) :: gs)).length) := by
  intro n
  induction n using Nat.strong_induction_on with
  | _ n ih =>
    refine ⟨?_, ?_, ?_⟩
    · intro v ind hsz
      cases v with
      | arr xs =>
        cases xs with
        | nil => simp [jfuel, dumpValL]
        | cons x xs =>
          simp only [JVal.arr.sizeOf_spec, List.cons.sizeOf_spec] at hsz
          have hm : sizeOf x + sizeOf xs < n := by omega
          have hit := (ih _ hm).2.1 x xs ind le_rfl
          simp only [jfuel, dumpValL, List.length_cons, List.length_append,
            List.length_cons, indentL, List.length_replicate, List.length_singleton]
          omega
      | obj fs =>
        cases fs with
        | nil => simp [jfuel, dumpValL]
        | cons f fs =>
          obtain ⟨k, v⟩ := f
          simp only [JVal.obj.sizeOf_spec, List.cons.sizeOf_spec, Prod.mk.sizeOf_spec] at hsz
          have hm : sizeOf v + sizeOf fs < n := by omega
          have hit := (ih _ hm).2.2 k v fs ind le_rfl
          simp only [jfuel, dumpValL, List.length_cons, List.length_append,
            indentL, List.length_replicate, List.length_singleton]
          omega
      | null =>
        obtain ⟨c, cs, hc, _, _⟩ := dumpValL_cons ind .null
        rw [hc]
        simp [jfuel]
      | bool b =>
        obtain ⟨c, cs, hc, _, _⟩ := dumpValL_cons ind (.bool b)
        rw [hc]
        simp [jfuel]
      | int m =>
        obtain ⟨c, cs, hc, _, _⟩ := dumpValL_cons ind (.int m)
        rw [hc]
        simp [jfuel]
      | float m e =>
        obtain ⟨c, cs, hc, _, _⟩ := dumpValL_cons ind (.float m e)
        rw [hc]
        simp [jfuel]
      | str s =>
        obtain ⟨c, cs, hc, _, _⟩ := dumpValL_cons ind (.str s)
        rw [hc]
        simp [jfuel]
    · intro x xs ind hsz
      cases xs with
      | nil =>
        have hv : sizeOf x < n := by
          simp only [List.nil.sizeOf_spec] at hsz
          omega
        have hval := (ih _ hv).1 x (ind + 2) le_rfl
        simp only [itemsFuel, jfuel, dumpItemsL, List.length_append, indentL,
          List.length_replicate]
        omega
      | cons y ys =>
        simp only [List.cons.sizeOf_spec] at hsz
        have hv : sizeOf x < n := by omega
        have hm : sizeOf y + sizeOf ys < n := by omega
        have hval := (ih _ hv).1 x (ind + 2) le_rfl
        have hit := (ih _ hm).2.1 y ys ind le_rfl
        have hmax : max (jfuel x) (itemsFuel (y :: ys)) ≤
            (dumpValL (ind + 2) x).length + (dumpItemsL (ind + 2) (y :: ys)).length :=
          le_trans (max_le_max hval hit)
            (max_le (Nat.le_add_right _ _) (Nat.le_add_left _ _))
        have hif : itemsFuel (x :: y :: ys) = 1 + max (jfuel x) (itemsFuel (y :: ys)) := rfl
        have hlen : (dumpItemsL (ind + 2) (x :: y :: ys)).length =
            ind + 2 + (dumpValL (ind + 2) x).length + 2 +
              (dumpItemsL (ind + 2) (y :: ys)).length := by
          simp [dumpItemsL, indentL]
          omega
        rw [hif, hlen]
        omega
    · intro k v gs ind hsz
      cases gs with
      | nil =>
        have hv : sizeOf v < n := by
          simp only [List.nil.sizeOf_spec] at hsz
          omega
        have hval := (ih _ hv).1 v (ind + 2) le_rfl
        simp only [fieldsFuel, jfuel, dumpFieldsL, List.length_append, List.length_cons,
          indentL, List.length_replicate, List.length_singleton]
        omega
      | cons g gs =>
        obtain ⟨k2, v2⟩ := g
        simp only [List.cons.sizeOf_spec, Prod.mk.sizeOf_spec] at hsz
        have hv : sizeOf v < n := by omega
        have hm : sizeOf v2 + sizeOf gs < n := by omega
        have hval := (ih _ hv).1 v (ind + 2) le_rfl
        have hit := (ih _ hm).2.2 k2 v2 gs ind le_rfl
        have hmax : max (jfuel v) (fieldsFuel ((k2, v2) :: gs)) ≤
            (dumpValL (ind + 2) v).length + (dumpFieldsL (ind + 2) ((k2, v2) :: gs)).length :=
          le_trans (max_le_max hval hit)
            (max_le (Nat.le_add_right _ _) (Nat.le_add_left _ _))
        have hif : fieldsFuel ((k, v) :: (k2, v2) :: gs) =
            1 + max (jfuel v) (fieldsFuel ((k2, v2) :: gs)) := rfl
        have hlen : (dumpFieldsL (ind + 2) ((k, v) :: (k2, v2) :: gs)).length =
            ind + 2 + (escChars k.data).length + 4 + (dumpValL (ind + 2) v).length + 2 +
              (dumpFieldsL (ind + 2) ((k2, v2) :: gs)).length := by
          simp [dumpFieldsL, indentL]
          omega
        rw [hif, hlen]
        omega

/-! ### One-step reductions of `parseVal` on each kind of head -/

theorem parseVal_succ_null (f : Nat) (pre l : List Char) (hpre : allWs pre = true) :
    parseVal (f + 1) (pre ++ ('n' :: 'u' :: 'l' :: 'l' :: l)) = some (.null, l) := by
  simp only [parseVal]
  rw [skipWs_allWs _ _ hpre, skipWs_not_ws _ _ (by decide)]
  simp

theorem parseVal_succ_true (f : Nat) (pre l : List Char) (hpre : allWs pre = true) :
    parseVal (f + 1) (pre ++ ('t' :: 'r' :: 'u' :: 'e' :: l)) = some (.bool true, l) := by
  simp only [parseVal]
  rw [skipWs_allWs _ _ hpre, skipWs_not_ws _ _ (by decide)]
  simp

theorem parseVal_succ_false (f : Nat) (pre l : List Char) (hpre : allWs pre = true) :
    parseVal (f + 1) (pre ++ ('f' :: 'a' :: 'l' :: 's' :: 'e' :: l)) =
      some (.bool false, l) := by
  simp only [parseVal]
  rw [skipWs_allWs _ _ hpre, skipWs_not_ws _ _ (by decide)]
  simp

theorem parseVal_succ_str (f : Nat) (pre cs rest : List Char) (hpre : allWs pre = true) :
    parseVal (f + 1) (pre ++ (qchar :: (escChars cs ++ qchar :: rest))) =
      some (.str (String.mk cs), rest) := by
  simp only [parseVal]
  rw [skipWs_allWs _ _ hpre, skipWs_not_ws _ _ (by decide)]
  simp only [show (qchar = 'n') = False by decide, show (qchar = 't') = False by decide,
    show (qchar = 'f') = False by decide, if_false, if_pos rfl, parseStr_escChars]
  rw [if_pos trivial]

theorem parseVal_succ_num (f : Nat) (pre : List Char) (c : Char) (l : List Char)
    (hpre : allWs pre = true) (hc : c = '-' ∨ isD c = true) :
    parseVal (f + 1) (pre ++ (c :: l)) = parseNumber (c :: l) := by
  have hws : isWs c = false := by
    rcases hc with h | h
    · subst h
      decide
    · exact (isD_facts c h).1
  simp only [parseVal]
  rw [skipWs_allWs _ _ hpre, skipWs_not_ws _ _ hws]
  rcases hc with h | h
  · subst h
    simp [show ('-' = qchar) = False by decide, show ('-' = lbrace) = False by decide]
  · have hf := isD_facts c h
    simp [hf.2.1, hf.2.2.1, hf.2.2.2.1, hf.2.2.2.2.1, hf.2.2.2.2.2.1,
      hf.2.2.2.2.2.2.1, h]

theorem parseVal_succ_int (f : Nat) (pre : List Char) (n : Int) (rest : List Char)
    (hpre : allWs pre = true) (hrest : restOk rest = true) :
    parseVal (f + 1) (pre ++ (intChars n ++ rest)) = some (.int n, rest) := by
  by_cases hneg : n < 0
  · rw [show intChars n ++ rest = '-' :: (natDigits n.natAbs ++ rest) by
      simp [intChars, hneg]]
    rw [parseVal_succ_num f pre '-' _ hpre (Or.inl rfl)]
    rw [show ('-' :: (natDigits n.natAbs ++ rest)) = intChars n ++ rest by
      simp [intChars, hneg]]
    exact parseNumber_intChars n rest hrest
  · obtain ⟨c, cs, hnd, hd, _⟩ := natDigits_cons n.natAbs
    rw [show intChars n ++ rest = c :: (cs ++ rest) by simp [intChars, hneg, hnd]]
    rw [parseVal_succ_num f pre c _ hpre (Or.inr hd)]
    rw [show (c :: (cs ++ rest)) = intChars n ++ rest by simp [intChars, hneg, hnd]]
    exact parseNumber_intChars n rest hrest

theorem parseVal_succ_float (f : Nat) (pre : List Char) (m : Int) (e : Nat)
    (rest : List Char) (he : 1 ≤ e) (hpre : allWs pre = true) (hrest : restOk rest = true) :
    parseVal (f + 1) (pre ++ (floatChars m e ++ rest)) = some (.float m e, rest) := by
  by_cases hneg : m < 0
  · rw [show floatChars m e ++ rest = '-' :: ((natDigits (m.natAbs / 10 ^ e) ++
      '.' :: padZeros e (natDigits (m.natAbs % 10 ^ e))) ++ rest) by simp [floatChars, hneg]]
    rw [parseVal_succ_num f pre '-' _ hpre (Or.inl rfl)]
    rw [show ('-' :: ((natDigits (m.natAbs / 10 ^ e) ++
      '.' :: padZeros e (natDigits (m.natAbs % 10 ^ e))) ++ rest)) = floatChars m e ++ rest by
      simp [floatChars, hneg]]
    exact parseNumber_floatChars m e he rest hrest
  · obtain ⟨c, cs, hnd, hd, _⟩ := natDigits_cons (m.natAbs / 10 ^ e)
    rw [show floatChars m e ++ rest = c :: ((cs ++
      '.' :: padZeros e (natDigits (m.natAbs % 10 ^ e))) ++ rest) by
      simp [floatChars, hneg, hnd]]
    rw [parseVal_succ_num f pre c _ hpre (Or.inr hd)]
    rw [show (c :: ((cs ++ '.' :: padZeros e (natDigits (m.natAbs % 10 ^ e))) ++ rest)) =
      floatChars m e ++ rest by simp [floatChars, hneg, hnd]]
    exact parseNumber_floatChars m e he rest hrest

theorem string_eta (s : String) : String.mk s.data = s := rfl

theorem parse_dump_main : ∀ fuel : Nat,
    (∀ v ind pre rest, wfJ v = true → jfuel v ≤ fuel → allWs pre = true → restOk rest = true →
      parseVal fuel (pre ++ (dumpValL ind v ++ rest)) = some (v, rest)) ∧
    (∀ x xs indI indC pre rest, wfL (x :: xs) = true → itemsFuel (x :: xs) ≤ fuel →
      allWs pre = true →
      parseItems fuel (pre ++ (dumpValL indI x ++ (afterItems indI xs ++
        ('\n' :: (indentL indC ++ (']' :: rest)))))) = some (x :: xs, rest)) ∧
    (∀ k v gs indI indC pre rest, wfF ((k, v) :: gs) = true →
      fieldsFuel ((k, v) :: gs) ≤ fuel → allWs pre = true →
      parseFields fuel (pre ++ (kvChars indI k v ++ (afterFields indI gs ++
        ('\n' :: (indentL indC ++ (rbrace :: rest)))))) = some ((k, v) :: gs, rest)) := by
  intro fuel
  induction fuel with
  | zero =>
    refine ⟨?_, ?_, ?_⟩
    · intro v ind pre rest _ hf _ _
      have := jfuel_pos v
      omega
    · intro x xs indI indC pre rest _ hf _
      rw [show itemsFuel (x :: xs) = 1 + max (jfuel x) (itemsFuel xs) from rfl] at hf
      omega
    · intro k v gs indI indC pre rest _ hf _
      rw [show fieldsFuel ((k, v) :: gs) = 1 + max (jfuel v) (fieldsFuel gs) from rfl] at hf
      omega
  | succ f ih =>
    obtain ⟨ihV, ihI, ihF⟩ := ih
    refine ⟨?_, ?_, ?_⟩
    · -- parseVal on a dumped value
      intro v ind pre rest hwf hfuel hpre hrest
      cases v with
      | null => exact parseVal_succ_null f pre rest hpre
      | bool b =>
        cases b with
        | true => exact parseVal_succ_true f pre rest hpre
        | false => exact parseVal_succ_false f pre rest hpre
      | int n => exact parseVal_succ_int f pre n rest hpre hrest
      | float m e =>
        have he : 1 ≤ e := by simpa [wfJ] using hwf
        exact parseVal_succ_float f pre m e rest he hpre hrest
      | str s =>
        have h := parseVal_succ_str f pre s.data rest hpre
        rw [string_eta] at h
        simpa [dumpValL] using h
      | arr xs =>
        cases xs with
        | nil =>
          simp only [dumpValL, parseVal, List.cons_append, List.nil_append]
          rw [skipWs_allWs _ _ hpre, skipWs_not_ws _ _ (by decide)]
          simp [skipWs, isWs, show ('[' = qchar) = False by decide,
            show ('[' = lbrace) = False by decide]
        | cons x xs =>
          have hwl : wfL (x :: xs) = true := by simpa [wfJ] using hwf
          have hfl : itemsFuel (x :: xs) ≤ f := by
            rw [show jfuel (.arr (x :: xs)) = 1 + itemsFuel (x :: xs) from rfl] at hfuel
            omega
          obtain ⟨c0, cs0, hc0, hc0ws, hc0br⟩ := dumpValL_cons (ind + 2) x
          have hskip2 : skipWs ('\n' :: (dumpItemsL (ind + 2) (x :: xs) ++
              ('\n' :: (indentL ind ++ (']' :: rest))))) =
              dumpValL (ind + 2) x ++ (afterItems (ind + 2) xs ++
                ('\n' :: (indentL ind ++ (']' :: rest)))) := by
            rw [skipWs_ws _ _ (by decide), dumpItemsL_decomp]
            simp only [List.append_assoc]
            rw [skipWs_allWs _ _ (allWs_indentL _), hc0, List.cons_append,
              skipWs_not_ws _ _ hc0ws, ← List.cons_append, ← hc0]
          have hhead : (dumpValL (ind + 2) x ++ (afterItems (ind + 2) xs ++
              ('\n' :: (indentL ind ++ (']' :: rest))))).head? = some c0 := by
            rw [hc0]
            simp
          have hitems := ihI x xs (ind + 2) ind [] rest hwl hfl rfl
          simp only [List.nil_append] at hitems
          simp only [dumpValL, parseVal, List.cons_append, List.nil_append,
            List.append_assoc, List.singleton_append]
          rw [skipWs_allWs _ _ hpre, skipWs_not_ws _ _ (by decide)]
          simp only [show ('[' = 'n') = False by decide, show ('[' = 't') = False by decide,
            show ('[' = 'f') = False by decide, show ('[' = qchar) = False by decide,
            if_false, if_pos rfl]
          have hne : ¬(some c0 = some (']' : Char)) := by simp [hc0br]
          rw [hskip2, hhead, if_neg hne, hitems]
          simp
      | obj fs =>
        cases fs with
        | nil =>
          simp only [dumpValL, parseVal, List.cons_append, List.nil_append,
            List.singleton_append]
          rw [skipWs_allWs _ _ hpre, skipWs_not_ws lbrace _ (by decide)]
          simp only [show (lbrace = 'n') = False by decide,
            show (lbrace = 't') = False by decide, show (lbrace = 'f') = False by decide,
            show (lbrace = qchar) = False by decide, show (lbrace = '[') = False by decide,
            if_false, if_pos rfl]
          rw [skipWs_not_ws rbrace _ (by decide)]
          simp
        | cons g gs =>
          obtain ⟨k, v1⟩ := g
          have hwl : wfF ((k, v1) :: gs) = true := by simpa [wfJ] using hwf
          have hfl : fieldsFuel ((k, v1) :: gs) ≤ f := by
            rw [show jfuel (.obj ((k, v1) :: gs)) = 1 + fieldsFuel ((k, v1) :: gs) from rfl]
              at hfuel
            omega
          have hskip2 : skipWs ('\n' :: (dumpFieldsL (ind + 2) ((k, v1) :: gs) ++
              ('\n' :: (indentL ind ++ (rbrace :: rest))))) =
              kvChars (ind + 2) k v1 ++ (afterFields (ind + 2) gs ++
                ('\n' :: (indentL ind ++ (rbrace :: rest)))) := by
            rw [skipWs_ws _ _ (by decide), dumpFieldsL_decomp]
            simp only [List.append_assoc]
            rw [skipWs_allWs _ _ (allWs_indentL _), kvChars, List.cons_append,
              skipWs_not_ws _ _ (show isWs qchar = false by decide), ← List.cons_append,
              ← kvChars]
          have hhead : (kvChars (ind + 2) k v1 ++ (afterFields (ind + 2) gs ++
              ('\n' :: (indentL ind ++ (rbrace :: rest))))).head? = some qchar := by
            rw [kvChars]
            simp
          have hfields := ihF k v1 gs (ind + 2) ind [] rest hwl hfl rfl
          simp only [List.nil_append] at hfields
          simp only [dumpValL, parseVal, List.cons_append, List.nil_append,
            List.append_assoc, List.singleton_append]
          rw [skipWs_allWs _ _ hpre, skipWs_not_ws _ _ (by decide)]
          simp only [show (lbrace = 'n') = False by decide,
            show (lbrace = 't') = False by decide, show (lbrace = 'f') = False by decide,
            show (lbrace = qchar) = False by decide, show (lbrace = '[') = False by decide,
            if_false, if_pos rfl]
          have hne : ¬(some qchar = some rbrace) := by decide
          rw [hskip2, hhead, if_neg hne, hfields]
          simp
    · -- parseItems on dumped items
      intro x xs indI indC pre rest hwf hfl hpre
      have hwx : wfJ x = true := by
        simp only [wfL, Bool.and_eq_true] at hwf
        exact hwf.1
      have hwxs : wfL xs = true := by
        simp only [wfL, Bool.and_eq_true] at hwf
        exact hwf.2
      have hjx : jfuel x ≤ f := by
        rw [show itemsFuel (x :: xs) = 1 + max (jfuel x) (itemsFuel xs) from rfl] at hfl
        have := Nat.le_max_left (jfuel x) (itemsFuel xs)
        omega
      have hrestOk : restOk (afterItems indI xs ++
          ('\n' :: (indentL indC ++ (']' :: rest)))) = true := by
        cases xs <;> rfl
      simp only [parseItems]
      rw [ihV x indI pre _ hwx hjx hpre hrestOk]
      cases xs with
      | nil =>
        simp only [afterItems, List.nil_append]
        simp [skipWs, isWs, skipWs_allWs, allWs_indentL]
      | cons y ys =>
        have hfy : itemsFuel (y :: ys) ≤ f := by
          rw [show itemsFuel (x :: y :: ys) =
            1 + max (jfuel x) (itemsFuel (y :: ys)) from rfl] at hfl
          have := Nat.le_max_right (jfuel x) (itemsFuel (y :: ys))
          omega
        have hnext := ihI y ys indI indC ('\n' :: indentL indI) rest hwxs hfy
          (by simp [allWs, allWs_indentL, isWs])
        simp only [List.cons_append, List.append_assoc] at hnext
        simp only [afterItems, List.cons_append, List.append_assoc]
        simp [skipWs, isWs, hnext]
    · -- parseFields on dumped fields
      intro k v gs indI indC pre rest hwf hfl hpre
      have hwv : wfJ v = true := by
        simp only [wfF, Bool.and_eq_true] at hwf
        exact hwf.1.2
      have hwgs : wfF gs = true := by
        simp only [wfF, Bool.and_eq_true] at hwf
        exact hwf.2
      have hjv : jfuel v ≤ f := by
        rw [show fieldsFuel ((k, v) :: gs) = 1 + max (jfuel v) (fieldsFuel gs) from rfl] at hfl
        have := Nat.le_max_left (jfuel v) (fieldsFuel gs)
        omega
      have hrestOk : restOk (afterFields indI gs ++
          ('\n' :: (indentL indC ++ (rbrace :: rest)))) = true := by
        cases gs with
        | nil => rfl
        | cons g2 gs2 =>
          obtain ⟨k2, v2⟩ := g2
          rfl
      have hval := ihV v indI [' '] (afterFields indI gs ++
        ('\n' :: (indentL indC ++ (rbrace :: rest)))) hwv hjv (by decide) hrestOk
      simp only [List.singleton_append] at hval
      simp only [parseFields, kvChars, List.cons_append, List.append_assoc,
        List.nil_append]
      rw [skipWs_allWs _ _ hpre, skipWs_not_ws qchar _ (by decide)]
      simp only [if_pos rfl, parseStr_escChars]
      rw [skipWs_not_ws ':' _ (by decide)]
      simp [hval]
      cases gs with
      | nil =>
        simp only [afterFields, List.nil_append]
        simp [skipWs, skipWs_allWs, allWs_indentL, string_eta,
          show isWs '\n' = true by decide, show isWs rbrace = false by decide,
          show (rbrace = ',') = False by decide]
      | cons g2 gs2 =>
        obtain ⟨k2, v2⟩ := g2
        have hfg : fieldsFuel ((k2, v2) :: gs2) ≤ f := by
          rw [show fieldsFuel ((k, v) :: (k2, v2) :: gs2) =
            1 + max (jfuel v) (fieldsFuel ((k2, v2) :: gs2)) from rfl] at hfl
          have := Nat.le_max_right (jfuel v) (fieldsFuel ((k2, v2) :: gs2))
          omega
        have hnext := ihF k2 v2 gs2 indI indC ('\n' :: indentL indI) rest hwgs hfg
          (by simp [allWs, allWs_indentL, isWs])
        simp only [List.cons_append, List.append_assoc] at hnext
        simp only [afterFields, List.cons_append, List.append_assoc]
        simp [skipWs, isWs, hnext, string_eta]

theorem jfuel_le_dumpLen (v : JVal) (ind : Nat) : jfuel v ≤ (dumpValL ind v).length :=
  (jfuel_bound (sizeOf v)).1 v ind le_rfl

/-- The serializer/parser round trip: `json.loads` recovers every
JSON-representable value from its `json.dumps(..., indent=2)` text. -/
theorem loads_dumps (w : JVal) (h : wfJ w = true) : loads (dumps w) = some w := by
  have hlen : jfuel w ≤ (dumpValL 0 w).length + 1 :=
    le_trans (jfuel_le_dumpLen w 0) (Nat.le_succ _)
  have hmain := (parse_dump_main ((dumpValL 0 w).length + 1)).1 w 0 [] [] h hlen rfl rfl
  simp only [List.nil_append, List.append_nil] at hmain
  simp [loads, dumps, hmain, skipWs]

/-- Claim C8.  The service's write-then-read pipeline — serialize the
fetched record with `json.dumps(..., indent=2)`, store the text under
the derived key, read the key back and parse with `json.loads` — returns
a value structurally equal to the one written, for every
JSON-representable record (`wfJ`): the store hands back the stored text
verbatim and the parse inverts the serialization. -/
theorem C8_write_then_read (st : GcsStore) (key : String) (w : JVal)
    (h : wfJ w = true) :
    writeThenRead st key w = some w ∧
    gcsReadText (gcsWrite st key (dumps w)) key = some (dumps w) ∧
    loads (dumps w) = some w := by
  have hl := loads_dumps w h
  have hrt : gcsReadText (gcsWrite st key (dumps w)) key = some (dumps w) := by
    simp [gcsWrite, gcsReadText]
  exact ⟨by simp [writeThenRead, gcsReadJson, hrt, hl], hrt, hl⟩

/-- Witness for C8: a nested weather-like record with floats, strings
and arrays survives the round trip through an empty store. -/
theorem C8_write_then_read_witness :
    wfJ (JVal.obj [("latitude", .float 5252 2), ("daily", .obj
      [("time", .arr [.str "2023-03-01", .str "2023-03-02"]),
       ("temperature_2m_max", .arr [.float 125 1, .float (-31) 1])])]) = true ∧
    writeThenRead [] "weather_lat52_52_lon13_41_from20230301_to20230303.json"
      (JVal.obj [("latitude", .float 5252 2), ("daily", .obj
        [("time", .arr [.str "2023-03-01", .str "2023-03-02"]),
         ("temperature_2m_max", .arr [.float 125 1, .float (-31) 1])])]) =
      some (JVal.obj [("latitude", .float 5252 2), ("daily", .obj
        [("time", .arr [.str "2023-03-01", .str "2023-03-02"]),
         ("temperature_2m_max", .arr [.float 125 1, .float (-31) 1])])]) :=
  ⟨by decide,
   (C8_write_then_read [] "weather_lat52_52_lon13_41_from20230301_to20230303.json"
     (JVal.obj [("latitude", .float 5252 2), ("daily", .obj
       [("time", .arr [.str "2023-03-01", .str "2023-03-02"]),
        ("temperature_2m_max", .arr [.float 125 1, .float (-31) 1])])])
     (by decide)).1⟩

theorem dval_le9 (a : Char) (h : isD a = true) : dval a ≤ 9 := by
  rcases isD_cases a h with h'|h'|h'|h'|h'|h'|h'|h'|h'|h' <;> subst h' <;> decide

theorem dval_pos (a : Char) (h : isD a = true) (h0 : a ≠ '0') : 1 ≤ dval a := by
  rcases isD_cases a h with h'|h'|h'|h'|h'|h'|h'|h'|h'|h' <;> subst h' <;>
    first
    | exact absurd rfl h0
    | decide

theorem digitsVal_one (a : Char) : digitsVal [a] = dval a := by
  simp [digitsVal]

theorem digitsVal_two (a b : Char) : digitsVal [a, b] = 10 * dval a + dval b := by
  simp [digitsVal]

theorem daysInMonth_le31 (y m : Nat) : daysInMonth y m ≤ 31 := by
  unfold daysInMonth
  split
  · split <;> omega
  · split <;> omega

theorem mem_ifSingleton {α : Type} (c : Prop) [Decidable c] (x y : α)
    (h : y ∈ (if c then [x] else [])) : c ∧ y = x := by
  split at h
  · simp at h
    exact ⟨by assumption, h⟩
  · simp at h

theorem monthCands_sound (l : List Char) (m : Nat) (r : List Char)
    (h : (m, r) ∈ monthCands l) :
    ∃ ms, l = ms ++ r ∧ digitsRep ms ∧ digitsVal ms = m ∧ 1 ≤ m ∧ m ≤ 12 := by
  match l with
  | [] => simp [monthCands] at h
  | [a] =>
    by_cases hc : isD a = true ∧ a ≠ '0'
    · rw [monthCands, if_pos hc] at h
      simp at h
      refine ⟨[a], by simp [h.2], Or.inl ⟨a, rfl, hc.1⟩, by simp [digitsVal_one, h.1],
        ?_, ?_⟩
      · rw [h.1]
        exact dval_pos a hc.1 hc.2
      · rw [h.1]
        have := dval_le9 a hc.1
        omega
    · rw [monthCands, if_neg hc] at h
      simp at h
  | a :: b :: rest =>
    rw [monthCands] at h
    rcases List.mem_append.mp h with h12 | h3
    · rcases List.mem_append.mp h12 with h1 | h2
      · -- 1[0-2]
        obtain ⟨⟨ha, hb⟩, he⟩ := mem_ifSingleton _ _ _ h1
        rw [Prod.mk.injEq] at he
        obtain ⟨hm, hr⟩ := he
        subst ha hm hr
        have hbv : dval b ≤ 2 := by
          rcases hb with hb | hb | hb <;> subst hb <;> decide
        have hbd : isD b = true := by
          rcases hb with hb | hb | hb <;> subst hb <;> decide
        refine ⟨['1', b], by simp, Or.inr ⟨'1', b, rfl, by decide, hbd⟩, ?_, by omega, by omega⟩
        rw [digitsVal_two]
        have hd1 : dval '1' = 1 := by decide
        omega
      · -- 0[1-9]
        obtain ⟨⟨ha, hb, hb0⟩, he⟩ := mem_ifSingleton _ _ _ h2
        rw [Prod.mk.injEq] at he
        obtain ⟨hm, hr⟩ := he
        subst ha hm hr
        have h1b := dval_pos b hb hb0
        have h9b := dval_le9 b hb
        refine ⟨['0', b], by simp, Or.inr ⟨'0', b, rfl, by decide, hb⟩, ?_, h1b, by omega⟩
        rw [digitsVal_two]
        have hd0 : dval '0' = 0 := by decide
        omega
    · -- [1-9]
      obtain ⟨⟨ha, ha0⟩, he⟩ := mem_ifSingleton _ _ _ h3
      rw [Prod.mk.injEq] at he
      obtain ⟨hm, hr⟩ := he
      subst hm hr
      have h1a := dval_pos a ha ha0
      have h9a := dval_le9 a ha
      exact ⟨[a], by simp, Or.inl ⟨a, rfl, ha⟩, by simp [digitsVal_one], h1a, by omega⟩

theorem dayCands_sound (l : List Char) (d : Nat) (r : List Char)
    (h : (d, r) ∈ dayCands l) :
    ∃ ds, l = ds ++ r ∧ digitsRep ds ∧ digitsVal ds = d ∧ 1 ≤ d := by
  match l with
  | [] => simp [dayCands] at h
  | [a] =>
    by_cases hc : isD a = true ∧ a ≠ '0'
    · rw [dayCands, if_pos hc] at h
      simp at h
      refine ⟨[a], by simp [h.2], Or.inl ⟨a, rfl, hc.1⟩, by simp [digitsVal_one, h.1], ?_⟩
      rw [h.1]
      exact dval_pos a hc.1 hc.2
    · rw [dayCands, if_neg hc] at h
      simp at h
  | a :: b :: rest =>
    rw [dayCands] at h
    rcases List.mem_append.mp h with h123 | h4
    · rcases List.mem_append.mp h123 with h12 | h3
      · rcases List.mem_append.mp h12 with h1 | h2
        · -- 3[01]
          obtain ⟨⟨ha, hb⟩, he⟩ := mem_ifSingleton _ _ _ h1
          rw [Prod.mk.injEq] at he
          obtain ⟨hm, hr⟩ := he
          subst ha hm hr
          have hbd : isD b = true := by
            rcases hb with hb | hb <;> subst hb <;> decide
          refine ⟨['3', b], by simp, Or.inr ⟨'3', b, rfl, by decide, hbd⟩, ?_, by omega⟩
          rw [digitsVal_two]
          have hd3 : dval '3' = 3 := by decide
          omega
        · -- [12]\d
          obtain ⟨⟨ha, hb⟩, he⟩ := mem_ifSingleton _ _ _ h2
          rw [Prod.mk.injEq] at he
          obtain ⟨hm, hr⟩ := he
          subst hm hr
          have had : isD a = true := by
            rcases ha with ha | ha <;> subst ha <;> decide
          have ha1 : 1 ≤ dval a := by
            rcases ha with ha | ha <;> subst ha <;> decide
          refine ⟨[a, b], by simp, Or.inr ⟨a, b, rfl, had, hb⟩, by rw [digitsVal_two],
            by omega⟩
      · -- 0[1-9]
        obtain ⟨⟨ha, hb, hb0⟩, he⟩ := mem_ifSingleton _ _ _ h3
        rw [Prod.mk.injEq] at he
        obtain ⟨hm, hr⟩ := he
        subst ha hm hr
        have h1b := dval_pos b hb hb0
        refine ⟨['0', b], by simp, Or.inr ⟨'0', b, rfl, by decide, hb⟩, ?_, h1b⟩
        rw [digitsVal_two]
        have hd0 : dval '0' = 0 := by decide
        omega
    · -- [1-9]
      obtain ⟨⟨ha, ha0⟩, he⟩ := mem_ifSingleton _ _ _ h4
      rw [Prod.mk.injEq] at he
      obtain ⟨hm, hr⟩ := he
      subst hm hr
      exact ⟨[a], by simp, Or.inl ⟨a, rfl, ha⟩, by simp [digitsVal_one],
        dval_pos a ha ha0⟩
theorem monthCands_head (ms tail : List Char) (h : digitsRep ms)
    (h1 : 1 ≤ digitsVal ms) (h12 : digitsVal ms ≤ 12) :
    (monthCands (ms ++ '-' :: tail)).head? = some (digitsVal ms, '-' :: tail) := by
  rcases h with ⟨a, hds, ha⟩ | ⟨a, b, hds, ha, hb⟩
  · subst hds
    rcases isD_cases a ha with h'|h'|h'|h'|h'|h'|h'|h'|h'|h' <;> subst h' <;>
      first
      | exact absurd h1 (by decide)
      | simp [monthCands, isD, dval, digitsVal]
  · subst hds
    rcases isD_cases a ha with h'|h'|h'|h'|h'|h'|h'|h'|h'|h' <;> subst h' <;>
    rcases isD_cases b hb with h'|h'|h'|h'|h'|h'|h'|h'|h'|h' <;> subst h' <;>
      first
      | exact absurd h1 (by decide)
      | exact absurd h12 (by decide)
      | simp [monthCands, isD, dval, digitsVal]

theorem dayCands_head (ds : List Char) (h : digitsRep ds)
    (h1 : 1 ≤ digitsVal ds) (h31 : digitsVal ds ≤ 31) :
    (dayCands ds).head? = some (digitsVal ds, []) := by
  rcases h with ⟨a, hds, ha⟩ | ⟨a, b, hds, ha, hb⟩
  · subst hds
    rcases isD_cases a ha with h'|h'|h'|h'|h'|h'|h'|h'|h'|h' <;> subst h' <;>
      first
      | exact absurd h1 (by decide)
      | decide
  · subst hds
    rcases isD_cases a ha with h'|h'|h'|h'|h'|h'|h'|h'|h'|h' <;> subst h' <;>
    rcases isD_cases b hb with h'|h'|h'|h'|h'|h'|h'|h'|h'|h' <;> subst h' <;>
      first
      | exact absurd h1 (by decide)
      | exact absurd h31 (by decide)
      | decide
theorem strptime_of_spec (s : String) (h : dateAcceptedSpec s) :
    validate_date_format s = true := by
  obtain ⟨y1, y2, y3, y4, ms, ds, hdata, hy1, hy2, hy3, hy4, hms, hds,
    hy, hm1, hm12, hd1, hdm⟩ := h
  have hd31 : digitsVal ds ≤ 31 := le_trans hdm (daysInMonth_le31 _ _)
  have hmc := monthCands_head ms ds hms hm1 hm12
  have hdc := dayCands_head ds hds hd1 hd31
  cases hcl : monthCands (ms ++ '-' :: ds) with
  | nil => rw [hcl] at hmc; simp at hmc
  | cons x t =>
    rw [hcl] at hmc
    simp at hmc
    subst hmc
    simp [validate_date_format, strptimeYMD, hdata, regexMatchYMD, hy1, hy2, hy3, hy4,
      hcl, List.findSome?_cons, hdc, validDate, decide_eq_true_eq, hy, hm1, hm12, hd1, hdm]

theorem spec_of_strptime (s : String) (h : validate_date_format s = true) :
    dateAcceptedSpec s := by
  unfold validate_date_format at h
  rw [Option.isSome_iff_exists] at h
  obtain ⟨ymd, hs⟩ := h
  unfold strptimeYMD at hs
  cases hr : regexMatchYMD s.data with
  | none => rw [hr] at hs; simp at hs
  | some q =>
    obtain ⟨y, m, d, rest⟩ := q
    rw [hr] at hs
    have hs2 : (if rest = [] ∧ 1 ≤ y ∧ validDate y m d = true then
        some (y, m, d) else none) = some ymd := hs
    split at hs2
    case' isFalse => simp at hs2
    case' isTrue hcond =>
      obtain ⟨hrestnil, hy1le, hvd⟩ := hcond
      rw [regexMatchYMD.eq_def] at hr
      split at hr
      case' h_2 => simp at hr
      case' h_1 y1 y2 y3 y4 rest0 heq =>
        split at hr
        case' isFalse => simp at hr
        case' isTrue hd4 =>
          obtain ⟨mc, hmem, hf⟩ := List.exists_of_findSome?_eq_some hr
          obtain ⟨mval, mrest⟩ := mc
          split at hf
          case h_2 => simp at hf
          case h_1 r2 heq2 =>
            rw [Option.map_eq_some'] at hf
            obtain ⟨dc, hhead, hdceq⟩ := hf
            obtain ⟨dv, drest⟩ := dc
            rw [Prod.mk.injEq, Prod.mk.injEq, Prod.mk.injEq] at hdceq
            obtain ⟨hYeq, hMeq, hDeq, hReq⟩ := hdceq
            obtain ⟨ms, hrest0, hmsRep, hmsVal, hm1, hm12⟩ :=
              monthCands_sound rest0 mval mrest hmem
            have hdmem : (dv, drest) ∈ dayCands r2 := by
              cases hcl : dayCands r2 with
              | nil => rw [hcl] at hhead; simp at hhead
              | cons x t =>
                rw [hcl] at hhead
                simp at hhead
                rw [hhead]
                exact List.mem_cons_self _ t
            obtain ⟨ds, hr2, hdsRep, hdsVal, hd1⟩ :=
              dayCands_sound r2 dv drest hdmem
            simp [validDate, decide_eq_true_eq] at hvd
            refine ⟨y1, y2, y3, y4, ms, ds, ?_, hd4.1, hd4.2.1, hd4.2.2.1, hd4.2.2.2,
              hmsRep, hdsRep, ?_, ?_, ?_, ?_, ?_⟩
            · have heq2s : mrest = '-' :: r2 := heq2
              have hReqs : drest = rest := hReq
              rw [heq, hrest0, heq2s, hr2, hReqs, hrestnil, List.append_nil]
            · rw [hYeq]; exact hy1le
            · omega
            · omega
            · omega
            · have hDeqs : dv = d := hDeq
              have hMeqs : mval = m := hMeq
              rw [hdsVal, hDeqs, hYeq, hmsVal, hMeqs]
              exact hvd.2

/-- Claim C2, corrected.  The validator `validate_date_format` (strptime
with `%Y-%m-%d`) accepts exactly the strings of shape
`DDDD-M(M)-D(D)`: a four-digit year at least 1, then a hyphen, then a
month written with one or two digits (zero padding optional), a hyphen,
and a day written with one or two digits, forming a real calendar date —
not only the zero-padded ten-character form the spec words describe.
All the spec's concrete examples behave as stated, non-strings are
rejected by the isinstance guard, and a failing date field yields the
400 InvalidDateFormat response. -/
theorem C2_date_validator (s : String) (v : JVal) :
    (validate_date_format s = true ↔ dateAcceptedSpec s) ∧
    (dateFieldOk v = true ↔ ∃ t, v = JVal.str t ∧ validate_date_format t = true) ∧
    validate_date_format "2023-03-01" = true ∧
    validate_date_format "2023-15-01" = false ∧
    validate_date_format "01-03-2023" = false ∧
    validate_date_format "2023/03/01" = false ∧
    (∀ env b fs lat lon sd ed,
      env.gcsBucketName = some b → b ≠ "" →
      dictGet fs "latitude" = some lat → dictGet fs "longitude" = some lon →
      dictGet fs "start_date" = some sd → dictGet fs "end_date" = some ed →
      isPyNumeric lat = true → isPyNumeric lon = true →
      (dateFieldOk sd && dateFieldOk ed) = false →
      store_weather_data_endpoint env (.parsed (.obj fs)) = (.resp .invalidDate, []) ∧
      StoreResult.invalidDate.statusCode = 400 ∧
      StoreResult.invalidDate.errorMessage =
        some "Invalid date format for start_date or end_date. Use YYYY-MM-DD.") := by
  refine ⟨⟨spec_of_strptime s, strptime_of_spec s⟩, ?_, by decide, by decide, by decide,
    by decide, ?_⟩
  · cases v <;> simp [dateFieldOk]
  · intro env b fs lat lon sd ed hb hbne h1 h2 h3 h4 hlat hlon hdate
    have hne : fs ≠ [] := by
      intro h
      rw [h] at h1
      simp [dictGet] at h1
    refine ⟨?_, rfl, rfl⟩
    simp [store_weather_data_endpoint, bucketOk, hb, hbne, JVal.isTruthy, hne,
      h1, h2, h3, h4, hlat, hlon, hdate]

/-- Witness for C2 at a concrete request whose start date fails the
validator. -/
theorem C2_date_validator_witness :
    validate_date_format "2023-03-01" = true ∧
    store_weather_data_endpoint ⟨some "bkt", fun _ _ _ _ => none, fun _ _ _ => true⟩
        (.parsed (.obj [("latitude", .float 5252 2), ("longitude", .float 1341 2),
          ("start_date", .str "2023-15-01"), ("end_date", .str "2023-03-03")])) =
      (.resp .invalidDate, []) :=
  ⟨(C2_date_validator "x" .null).2.2.1,
   ((C2_date_validator "x" .null).2.2.2.2.2.2
      ⟨some "bkt", fun _ _ _ _ => none, fun _ _ _ => true⟩ "bkt"
      [("latitude", .float 5252 2), ("longitude", .float 1341 2),
       ("start_date", .str "2023-15-01"), ("end_date", .str "2023-03-03")]
      (.float 5252 2) (.float 1341 2) (.str "2023-15-01") (.str "2023-03-03")
      rfl (fun h => by simp at h) rfl rfl rfl rfl (by decide) (by decide) (by decide)).1⟩

/-- Counterexample to the literal C2 wording: strptime is lenient about
zero padding, so `2023-3-1` — not of the exact zero-padded `YYYY-MM-DD`
shape the spec describes — is accepted by the code's validator. -/
theorem C2_counterexample :
    validate_date_format "2023-3-1" = true ∧ dateZeroPaddedSpec "2023-3-1" = false ∧
    (∀ s : String, dateZeroPaddedSpec s = true → validate_date_format s = true) := by
  refine ⟨by decide, by decide, ?_⟩
  intro s h
  unfold dateZeroPaddedSpec at h
  split at h
  case h_2 => simp at h
  case h_1 y1 y2 y3 y4 c1 m1 m2 c2 d1 d2 heq =>
    simp [validDate, decide_eq_true_eq] at h
    obtain ⟨⟨⟨⟨⟨⟨⟨⟨⟨⟨⟨hc1, hc2⟩, hy1⟩, hy2⟩, hy3⟩, hy4⟩, hm1⟩, hm2⟩, hd1⟩, hd2⟩,
      hyy⟩, ⟨⟨⟨hmm1, hmm2⟩, hdd1⟩, hdd2⟩⟩ := h
    apply strptime_of_spec
    refine ⟨y1, y2, y3, y4, [m1, m2], [d1, d2], ?_, hy1, hy2, hy3, hy4,
      Or.inr ⟨m1, m2, rfl, hm1, hm2⟩, Or.inr ⟨d1, d2, rfl, hd1, hd2⟩,
      hyy, hmm1, hmm2, hdd1, hdd2⟩
    rw [heq, hc1, hc2]
    rfl
